import Mathlib

/-!
Verification of the extraction / merge / numbering core of the Invoice Generator
repository.  Each definition is a shallow embedding of a TypeScript function of
the repository.  JavaScript numbers are modelled as exact rationals, absent or
null optional fields as `Option.none`, thrown exceptions as `Except.error`, and
the browser-storage cell read and written by the numbering service as an
explicit `Option String` value threaded through the function.
-/

set_option maxRecDepth 8000

namespace InvoiceGen

/-- ASCII digit test; models the regex character class \d. -/
def isDigitCh (c : Char) : Bool := 48 ≤ c.toNat && c.toNat ≤ 57

/-- Numeric value of a decimal digit character. -/
def digitVal (c : Char) : Nat := c.toNat - 48

/-- Value of a list of decimal digit characters, most significant first;
models JavaScript parseInt(s, 10) applied to a digits-only string. -/
def digitsToNat (cs : List Char) : Nat := cs.foldl (fun n c => 10 * n + digitVal c) 0

/-- The decimal digit character of d (for d in 0..9). -/
def digitChar (d : Nat) : Char :=
  match d with
  | 0 => '0' | 1 => '1' | 2 => '2' | 3 => '3' | 4 => '4'
  | 5 => '5' | 6 => '6' | 7 => '7' | 8 => '8' | _ => '9'

/-- Fuel-driven decimal expansion of a natural number; any fuel larger than n
computes the digits of n, most significant first. -/
def natDigitsCore : Nat → Nat → List Char
  | 0, _ => []
  | fuel+1, n =>
    if n < 10 then [digitChar n]
    else natDigitsCore fuel (n / 10) ++ [digitChar (n % 10)]

/-- Decimal digit characters of n, most significant first; models
Number.prototype.toString() on a non-negative integer. -/
def natDigits (n : Nat) : List Char := natDigitsCore (n+1) n

/-- Decimal string of a natural number (JavaScript template-literal rendering). -/
def natToString (n : Nat) : String := String.mk (natDigits n)

/-- Left-pad a character list with '0' to length 3; models
String.prototype.padStart(3, '0'). -/
def padStart3 (cs : List Char) : List Char := List.replicate (3 - cs.length) '0' ++ cs

/-! ## Invoice numbering service

Embedding of NumberingService (src/lib/numbering/service.ts): the strict
pattern INVOICE_NUMBER_PATTERN = /^INV-(\d{4})-(\d{3})$/, parseInvoiceNumber,
formatInvoiceNumber and generateNext. -/

/-- Error message thrown by NumberingService.parseInvoiceNumber on input that
does not match INVOICE_NUMBER_PATTERN. -/
def invalidFormatMsg (s : String) : String :=
  "Invalid invoice number format: " ++ s ++ ". Expected format: INV-YYYY-###"

/-- List-level matcher for INVOICE_NUMBER_PATTERN = /^INV-(\d{4})-(\d{3})$/:
the character sequence must be exactly INV-, four digits, -, three digits.
On success returns (parseInt(group1, 10), parseInt(group2, 10)). -/
def matchInvoicePatternList : List Char → Option (Nat × Nat)
  | [c0, c1, c2, c3, c4, c5, c6, c7, c8, c9, c10, c11] =>
    if c0 = 'I' ∧ c1 = 'N' ∧ c2 = 'V' ∧ c3 = '-' ∧ c8 = '-' ∧
       isDigitCh c4 = true ∧ isDigitCh c5 = true ∧ isDigitCh c6 = true ∧
       isDigitCh c7 = true ∧ isDigitCh c9 = true ∧ isDigitCh c10 = true ∧
       isDigitCh c11 = true then
      some (digitsToNat [c4, c5, c6, c7], digitsToNat [c9, c10, c11])
    else none
  | _ => none

/-- Matching a string against INVOICE_NUMBER_PATTERN. -/
def matchInvoicePattern (s : String) : Option (Nat × Nat) :=
  matchInvoicePatternList s.data

/-- NumberingService.parseInvoiceNumber: match against the strict pattern;
a failed match throws (modelled as Except.error) with a descriptive message. -/
def parseInvoiceNumber (s : String) : Except String (Nat × Nat) :=
  match matchInvoicePattern s with
  | some r => Except.ok r
  | none => Except.error (invalidFormatMsg s)

/-- NumberingService.formatInvoiceNumber:
the template literal INV-(year)-(sequence.toString().padStart(3, '0')). -/
def formatInvoiceNumber (year seq : Nat) : String :=
  String.mk ("INV-".data ++ natDigits year ++ '-' :: padStart3 (natDigits seq))

/-- NumberingService.generateNext, over the persisted last-invoice-number
storage cell (storageService.getLastInvoiceNumber / saveLastInvoiceNumber) and
the current calendar year (new Date().getFullYear()).  Returns the call result
together with the storage contents after the call.  The source guard
if (!lastNumber) is the JavaScript falsy test: it holds both for an absent
cell (null) and for a persisted empty string, and in both cases a fresh
sequence is started and persisted.  For a non-empty cell the parse error of a
malformed string propagates before any save is reached, so in that case the
cell is returned unchanged. -/
def generateNext (currentYear : Nat) (store : Option String) :
    Except String String × Option String :=
  match store with
  | none =>
    let newNumber := formatInvoiceNumber currentYear 1
    (Except.ok newNumber, some newNumber)
  | some lastNumber =>
    if lastNumber = "" then
      let newNumber := formatInvoiceNumber currentYear 1
      (Except.ok newNumber, some newNumber)
    else
      match parseInvoiceNumber lastNumber with
      | Except.error e => (Except.error e, some lastNumber)
      | Except.ok (year, seq) =>
        if year < currentYear then
          let newNumber := formatInvoiceNumber currentYear 1
          (Except.ok newNumber, some newNumber)
        else
          let newNumber := formatInvoiceNumber currentYear (seq + 1)
          (Except.ok newNumber, some newNumber)

/-- Numeric suffix of an invoice-number string: the value of its trailing run
of decimal digit characters. -/
def numericSuffix (s : String) : Nat :=
  digitsToNat (s.data.reverse.takeWhile (fun c => isDigitCh c)).reverse

instance {ε α : Type} [DecidableEq ε] [DecidableEq α] : DecidableEq (Except ε α) :=
  fun a b =>
    match a, b with
    | .ok x, .ok y => if h : x = y then isTrue (by rw [h]) else isFalse (by simp [h])
    | .error x, .error y => if h : x = y then isTrue (by rw [h]) else isFalse (by simp [h])
    | .ok _, .error _ => isFalse (by simp)
    | .error _, .ok _ => isFalse (by simp)

/-! ## Arithmetic facts about the digit helpers -/

theorem digitVal_digitChar (d : Nat) (h : d < 10) : digitVal (digitChar d) = d := by
  interval_cases d <;> rfl

theorem isDigitCh_digitChar (d : Nat) (h : d < 10) : isDigitCh (digitChar d) = true := by
  interval_cases d <;> rfl

theorem digitsToNat_append (l1 l2 : List Char) :
    digitsToNat (l1 ++ l2) =
      List.foldl (fun n c => 10 * n + digitVal c) (digitsToNat l1) l2 := by
  simp [digitsToNat, List.foldl_append]

theorem digitsToNat_snoc (l : List Char) (c : Char) :
    digitsToNat (l ++ [c]) = 10 * digitsToNat l + digitVal c := by
  rw [digitsToNat_append]; rfl

theorem digitsToNat_replicate_zero (k : Nat) :
    digitsToNat (List.replicate k '0') = 0 := by
  induction k with
  | zero => rfl
  | succ n ih =>
    simpa [digitsToNat, List.replicate_succ, digitVal] using ih

theorem digitsToNat_padStart3 (cs : List Char) :
    digitsToNat (padStart3 cs) = digitsToNat cs := by
  rw [padStart3, digitsToNat_append, digitsToNat_replicate_zero]; rfl

theorem padStart3_length (cs : List Char) (h : cs.length ≤ 3) :
    (padStart3 cs).length = 3 := by
  simp [padStart3]; omega

theorem padStart3_digits (cs : List Char) (h : ∀ c ∈ cs, isDigitCh c = true) :
    ∀ c ∈ padStart3 cs, isDigitCh c = true := by
  intro c hc
  rcases List.mem_append.1 hc with h0 | h0
  · rw [List.eq_of_mem_replicate h0]; rfl
  · exact h c h0

theorem natDigitsCore_spec (n : Nat) : ∀ fuel, n < fuel →
    (∀ c ∈ natDigitsCore fuel n, isDigitCh c = true) ∧
    digitsToNat (natDigitsCore fuel n) = n ∧
    natDigitsCore fuel n ≠ [] := by
  induction n using Nat.strong_induction_on with
  | _ n ih =>
    intro fuel hf
    match fuel, hf with
    | f+1, hf =>
      by_cases h10 : n < 10
      · refine ⟨?_, ?_, ?_⟩ <;> simp [natDigitsCore, h10]
        · exact isDigitCh_digitChar n h10
        · simpa [digitsToNat] using digitVal_digitChar n h10
      · have hdiv : n / 10 < n := Nat.div_lt_self (by omega) (by omega)
        have hrec := ih (n / 10) hdiv f (by omega)
        rw [show natDigitsCore (f+1) n =
              natDigitsCore f (n / 10) ++ [digitChar (n % 10)] by
            simp [natDigitsCore, h10]]
        refine ⟨?_, ?_, by simp⟩
        · intro c hc
          rcases List.mem_append.1 hc with h0 | h0
          · exact hrec.1 c h0
          · rw [List.mem_singleton.1 h0]
            exact isDigitCh_digitChar _ (Nat.mod_lt _ (by omega))
        · rw [digitsToNat_snoc, hrec.2.1, digitVal_digitChar _ (Nat.mod_lt _ (by omega))]
          omega

theorem natDigitsCore_length_le (n : Nat) : ∀ fuel k, n < fuel → n < 10 ^ k → 1 ≤ k →
    (natDigitsCore fuel n).length ≤ k := by
  induction n using Nat.strong_induction_on with
  | _ n ih =>
    intro fuel k hf hk h1
    match fuel, hf with
    | f+1, hf =>
      by_cases h10 : n < 10
      · simp [natDigitsCore, h10]; omega
      · have hk2 : 2 ≤ k := by
          by_contra hcon
          interval_cases k <;> omega
        have hdiv : n / 10 < n := Nat.div_lt_self (by omega) (by omega)
        have hdivk : n / 10 < 10 ^ (k - 1) := by
          rw [Nat.div_lt_iff_lt_mul (by omega)]
          calc n < 10 ^ k := hk
          _ = 10 ^ (k - 1) * 10 := by
                rw [← pow_succ]
                congr 1
                omega
        have hrec := ih (n / 10) hdiv f (k - 1) (by omega) hdivk (by omega)
        rw [show natDigitsCore (f+1) n =
              natDigitsCore f (n / 10) ++ [digitChar (n % 10)] by
            simp [natDigitsCore, h10]]
        simp only [List.length_append, List.length_singleton]
        omega

theorem natDigitsCore_length_ge (n : Nat) : ∀ fuel k, n < fuel → 10 ^ k ≤ n →
    k + 1 ≤ (natDigitsCore fuel n).length := by
  induction n using Nat.strong_induction_on with
  | _ n ih =>
    intro fuel k hf hk
    match fuel, hf with
    | f+1, hf =>
      by_cases h10 : n < 10
      · have hk0 : k = 0 := by
          by_contra hcon
          have h1 : 1 ≤ k := by omega
          have : (10:Nat) ^ 1 ≤ 10 ^ k := Nat.pow_le_pow_right (by omega) h1
          simp at this
          omega
        subst hk0
        simp [natDigitsCore, h10]
      · have hdiv : n / 10 < n := Nat.div_lt_self (by omega) (by omega)
        rw [show natDigitsCore (f+1) n =
              natDigitsCore f (n / 10) ++ [digitChar (n % 10)] by
            simp [natDigitsCore, h10]]
        simp only [List.length_append, List.length_singleton]
        rcases Nat.eq_zero_or_pos k with hk0 | hk1
        · subst hk0
          have := (natDigitsCore_spec (n / 10) f (by omega)).2.2
          have : 1 ≤ (natDigitsCore f (n / 10)).length :=
            List.length_pos.2 this
          omega
        · have hdivk : 10 ^ (k - 1) ≤ n / 10 := by
            rw [Nat.le_div_iff_mul_le (by omega)]
            calc 10 ^ (k - 1) * 10 = 10 ^ k := by
                  rw [← pow_succ]
                  congr 1
                  omega
            _ ≤ n := hk
          have hrec := ih (n / 10) hdiv f (k - 1) (by omega) hdivk
          omega

theorem natDigits_digits (n : Nat) : ∀ c ∈ natDigits n, isDigitCh c = true :=
  (natDigitsCore_spec n (n+1) (Nat.lt_succ_self n)).1

theorem digitsToNat_natDigits (n : Nat) : digitsToNat (natDigits n) = n :=
  (natDigitsCore_spec n (n+1) (Nat.lt_succ_self n)).2.1

theorem natDigits_length_four (n : Nat) (h1 : 1000 ≤ n) (h2 : n ≤ 9999) :
    (natDigits n).length = 4 := by
  have hle := natDigitsCore_length_le n (n+1) 4 (Nat.lt_succ_self n) (by norm_num; omega) (by omega)
  have hge := natDigitsCore_length_ge n (n+1) 3 (Nat.lt_succ_self n) (by norm_num; omega)
  unfold natDigits
  omega

theorem natDigits_length_le_three (n : Nat) (h : n ≤ 999) :
    (natDigits n).length ≤ 3 :=
  natDigitsCore_length_le n (n+1) 3 (Nat.lt_succ_self n) (by norm_num; omega) (by omega)

theorem exists_four_of_length (l : List Char) (h : l.length = 4) :
    ∃ a b c d, l = [a, b, c, d] := by
  rcases l with _ | ⟨a, _ | ⟨b, _ | ⟨c, _ | ⟨d, _ | ⟨e, t⟩⟩⟩⟩⟩ <;> simp_all

theorem exists_three_of_length (l : List Char) (h : l.length = 3) :
    ∃ a b c, l = [a, b, c] := by
  rcases l with _ | ⟨a, _ | ⟨b, _ | ⟨c, _ | ⟨d, t⟩⟩⟩⟩ <;> simp_all

/-! ## Numbering service properties -/

theorem string_eq_of_data (s t : String) (h : s.data = t.data) : s = t := by
  cases s; cases t
  exact congrArg String.mk h

/-- Round-trip from format to parse, in the range the strict pattern accepts:
four-digit years and sequences from 1 to 999. -/
theorem parse_format_roundtrip (year seq : Nat)
    (hy1 : 1000 ≤ year) (hy2 : year ≤ 9999) (hs1 : 1 ≤ seq) (hs2 : seq ≤ 999) :
    parseInvoiceNumber (formatInvoiceNumber year seq) = Except.ok (year, seq) := by
  obtain ⟨a, b, c, d, hY⟩ :=
    exists_four_of_length (natDigits year) (natDigits_length_four year hy1 hy2)
  obtain ⟨e, f, g, hZ⟩ :=
    exists_three_of_length (padStart3 (natDigits seq))
      (padStart3_length _ (natDigits_length_le_three seq hs2))
  have hYd : ∀ x ∈ natDigits year, isDigitCh x = true := natDigits_digits year
  have hZd : ∀ x ∈ padStart3 (natDigits seq), isDigitCh x = true :=
    padStart3_digits _ (natDigits_digits seq)
  rw [hY] at hYd
  rw [hZ] at hZd
  have hdata : (formatInvoiceNumber year seq).data =
      ['I', 'N', 'V', '-', a, b, c, d, '-', e, f, g] := by
    show "INV-".data ++ natDigits year ++ '-' :: padStart3 (natDigits seq) = _
    rw [hY, hZ]
    rfl
  have hmatch : matchInvoicePattern (formatInvoiceNumber year seq) = some (year, seq) := by
    unfold matchInvoicePattern
    rw [hdata]
    simp only [matchInvoicePatternList]
    rw [if_pos]
    · have h1 : digitsToNat [a, b, c, d] = year := by
        rw [← hY, digitsToNat_natDigits]
      have h2 : digitsToNat [e, f, g] = seq := by
        rw [← hZ, digitsToNat_padStart3, digitsToNat_natDigits]
      rw [h1, h2]
    · simp_all
  simp [parseInvoiceNumber, hmatch]

/-- C1 witness: concrete round trip inside the accepted range. -/
theorem parse_format_roundtrip_witness :
    parseInvoiceNumber (formatInvoiceNumber 2024 42) = Except.ok (2024, 42) :=
  parse_format_roundtrip 2024 42 (by norm_num) (by norm_num) (by norm_num) (by norm_num)

/-- C1 counterexample: the claim as stated fails at sequence 1000, because the
formatted string INV-2024-1000 does not match the strict three-digit pattern
and parsing therefore throws instead of returning the pair back. -/
theorem parse_format_fails_at_1000 :
    parseInvoiceNumber (formatInvoiceNumber 2024 1000) ≠ Except.ok (2024, 1000) ∧
    parseInvoiceNumber (formatInvoiceNumber 2024 1000) =
      Except.error (invalidFormatMsg "INV-2024-1000") := by
  constructor
  · decide
  · decide

/-- C3 (amended): when the persisted string is present, NON-EMPTY, and does
not match the strict pattern, generateNext propagates the descriptive parse
error and the persisted storage cell is unchanged.  The non-emptiness
hypothesis is necessary: the empty string is present and non-matching, yet
the source's falsy guard if (!lastNumber) treats it as no history and
silently resets the sequence. -/
theorem generateNext_malformed (y : Nat) (s : String)
    (h : matchInvoicePattern s = none) (hne : s ≠ "") :
    generateNext y (some s) = (Except.error (invalidFormatMsg s), some s) := by
  simp [generateNext, parseInvoiceNumber, h, hne]

/-- C3 witness at a concrete malformed persisted string. -/
theorem generateNext_malformed_witness :
    generateNext 2024 (some "INVALID") =
      (Except.error (invalidFormatMsg "INVALID"), some "INVALID") :=
  generateNext_malformed 2024 "INVALID" (by decide) (by decide)

/-- C3 counterexample to the original claim: the persisted empty string is
present and does not match the pattern, yet generateNext does not throw — the
JavaScript falsy guard if (!lastNumber) treats it as no history, so the call
succeeds with INV-2024-001 and silently overwrites the persisted cell. -/
theorem generateNext_empty_resets :
    matchInvoicePattern "" = none ∧
    generateNext 2024 (some "") = (Except.ok "INV-2024-001", some "INV-2024-001") := by
  constructor
  · decide
  · decide

/-- C5: when the persisted number parses to a year strictly before the current
year, generateNext returns INV-(currentYear)-001 and persists it. -/
theorem generateNext_rollover (y yr sq : Nat) (s : String)
    (hp : matchInvoicePattern s = some (yr, sq)) (hlt : yr < y) :
    generateNext y (some s) =
      (Except.ok (formatInvoiceNumber y 1), some (formatInvoiceNumber y 1)) ∧
    formatInvoiceNumber y 1 = "INV-" ++ natToString y ++ "-001" := by
  constructor
  · have hne : s ≠ "" := by
      intro hcon
      rw [hcon] at hp
      have hnone : matchInvoicePattern "" = none := by decide
      rw [hnone] at hp
      exact Option.noConfusion hp
    simp [generateNext, parseInvoiceNumber, hp, hlt, hne]
  · apply string_eq_of_data
    show "INV-".data ++ natDigits y ++ '-' :: padStart3 (natDigits 1) = _
    rw [show ("INV-" ++ natToString y ++ "-001").data =
          ("INV-".data ++ natDigits y) ++ "-001".data by
        simp [natToString]]
    rfl

/-- C5 witness: the spec example, persisted INV-2023-999, current year 2024. -/
theorem generateNext_rollover_witness :
    generateNext 2024 (some "INV-2023-999") =
      (Except.ok "INV-2024-001", some "INV-2024-001") :=
  (generateNext_rollover 2024 2023 999 "INV-2023-999" (by decide) (by decide)).1

/-! ## Sequence monotonicity (C4) -/

theorem takeWhile_append_cons (p : Char → Bool) (l1 : List Char) (x : Char)
    (l2 : List Char) (h1 : ∀ c ∈ l1, p c = true) (h2 : p x = false) :
    List.takeWhile p (l1 ++ x :: l2) = l1 := by
  induction l1 with
  | nil => simp [List.takeWhile, h2]
  | cons a as ih =>
    have ha : p a = true := h1 a (List.mem_cons_self a as)
    have ih' := ih (fun c hc => h1 c (List.mem_cons_of_mem a hc))
    simp [List.takeWhile_cons, ha, ih']

/-- The numeric suffix of a formatted invoice number is its sequence value. -/
theorem numericSuffix_format (y q : Nat) :
    numericSuffix (formatInvoiceNumber y q) = q := by
  unfold numericSuffix formatInvoiceNumber
  show digitsToNat (List.takeWhile _
    (("INV-".data ++ natDigits y ++ '-' :: padStart3 (natDigits q)).reverse)).reverse = q
  have hrev : ("INV-".data ++ natDigits y ++ '-' :: padStart3 (natDigits q)).reverse =
      (padStart3 (natDigits q)).reverse ++ '-' :: ((natDigits y).reverse ++ "INV-".data.reverse) := by
    simp
  rw [hrev, takeWhile_append_cons _ _ _ _
        (fun c hc => padStart3_digits _ (natDigits_digits q) c (List.mem_reverse.1 hc))
        (by rfl),
      List.reverse_reverse, digitsToNat_padStart3, digitsToNat_natDigits]

theorem sep_split_unique (A : List Char) : ∀ (C B D : List Char),
    (∀ c ∈ A, isDigitCh c = true) → (∀ c ∈ C, isDigitCh c = true) →
    A ++ '-' :: B = C ++ '-' :: D → A = C ∧ B = D := by
  induction A with
  | nil =>
    intro C B D _ hC h
    cases C with
    | nil => simpa using h
    | cons c cs =>
      simp only [List.nil_append, List.cons_append, List.cons.injEq] at h
      have : isDigitCh c = true := hC c (List.mem_cons_self c cs)
      rw [← h.1] at this
      simp [isDigitCh] at this
  | cons a as ih =>
    intro C B D hA hC h
    cases C with
    | nil =>
      simp only [List.cons_append, List.nil_append, List.cons.injEq] at h
      have : isDigitCh a = true := hA a (List.mem_cons_self a as)
      rw [h.1] at this
      simp [isDigitCh] at this
    | cons c cs =>
      simp only [List.cons_append, List.cons.injEq] at h
      obtain ⟨h1, h2⟩ := h
      obtain ⟨h3, h4⟩ := ih cs B D
        (fun x hx => hA x (List.mem_cons_of_mem a hx))
        (fun x hx => hC x (List.mem_cons_of_mem c hx)) h2
      exact ⟨by rw [h1, h3], h4⟩

/-- A successful strict-pattern match determines the shape of the string. -/
theorem matchInvoicePattern_eq_some (s : String) (a b : Nat)
    (h : matchInvoicePattern s = some (a, b)) :
    ∃ Y Z : List Char, s.data = ['I', 'N', 'V', '-'] ++ Y ++ '-' :: Z ∧
      (∀ c ∈ Y, isDigitCh c = true) ∧ (∀ c ∈ Z, isDigitCh c = true) ∧
      a = digitsToNat Y ∧ b = digitsToNat Z := by
  unfold matchInvoicePattern matchInvoicePatternList at h
  split at h
  case _ c0 c1 c2 c3 c4 c5 c6 c7 c8 c9 c10 c11 heq =>
    split at h
    case isTrue hcond =>
      obtain ⟨e0, e1, e2, e3, e8, d4, d5, d6, d7, d9, d10, d11⟩ := hcond
      refine ⟨[c4, c5, c6, c7], [c9, c10, c11], ?_, ?_, ?_, ?_, ?_⟩
      · rw [heq, e0, e1, e2, e3, e8]; rfl
      · intro c hc
        simp only [List.mem_cons, List.not_mem_nil, or_false] at hc
        rcases hc with rfl | rfl | rfl | rfl <;> assumption
      · intro c hc
        simp only [List.mem_cons, List.not_mem_nil, or_false] at hc
        rcases hc with rfl | rfl | rfl <;> assumption
      · injection h with h'
        injection h' with h1 h2
        exact h1.symm
      · injection h with h'
        injection h' with h1 h2
        exact h2.symm
    case isFalse => exact absurd h (by simp)
  case _ => exact absurd h (by simp)

/-- Parsing the freshly formatted number recovers exactly the year and the
sequence that were formatted (whenever the parse succeeds at all). -/
theorem matchInvoicePattern_format (y q a b : Nat)
    (h : matchInvoicePattern (formatInvoiceNumber y q) = some (a, b)) :
    a = y ∧ b = q := by
  obtain ⟨Y, Z, hdata, hYd, hZd, ha, hb⟩ := matchInvoicePattern_eq_some _ _ _ h
  have hdata' : ('I' :: 'N' :: 'V' :: '-' :: (natDigits y ++ '-' :: padStart3 (natDigits q)) : List Char) =
      'I' :: 'N' :: 'V' :: '-' :: (Y ++ '-' :: Z) := by
    have : (formatInvoiceNumber y q).data =
        'I' :: 'N' :: 'V' :: '-' :: (natDigits y ++ '-' :: padStart3 (natDigits q)) := rfl
    rw [this] at hdata
    simpa using hdata
  have hsplit := sep_split_unique (natDigits y) Y
    (padStart3 (natDigits q)) Z (natDigits_digits y) hYd (by simpa using hdata')
  constructor
  · rw [ha, ← hsplit.1, digitsToNat_natDigits]
  · rw [hb, ← hsplit.2, digitsToNat_padStart3, digitsToNat_natDigits]

/-- Every successful generateNext call returns a freshly formatted number for
the current year and persists exactly that number. -/
theorem generateNext_ok (y : Nat) (st : Option String) (n : String)
    (st' : Option String) (h : generateNext y st = (Except.ok n, st')) :
    ∃ q, n = formatInvoiceNumber y q ∧ st' = some n := by
  cases st with
  | none =>
    simp only [generateNext] at h
    injection h with h1 h2
    injection h1 with h1
    exact ⟨1, h1.symm, by rw [← h2, h1]⟩
  | some s =>
    simp only [generateNext] at h
    by_cases hse : s = ""
    · rw [if_pos hse] at h
      injection h with h1 h2
      injection h1 with h1
      exact ⟨1, h1.symm, by rw [← h2, h1]⟩
    · rw [if_neg hse] at h
      cases hp : parseInvoiceNumber s with
      | error e =>
        rw [hp] at h
        injection h with h1 h2
        injection h1
      | ok p =>
        obtain ⟨yr, sq⟩ := p
        rw [hp] at h
        replace h : (if yr < y then
            ((Except.ok (formatInvoiceNumber y 1), some (formatInvoiceNumber y 1)) :
              Except String String × Option String)
          else
            (Except.ok (formatInvoiceNumber y (sq + 1)),
              some (formatInvoiceNumber y (sq + 1)))) = (Except.ok n, st') := h
        by_cases hlt : yr < y
        · rw [if_pos hlt] at h
          injection h with h1 h2
          injection h1 with h1
          exact ⟨1, h1.symm, by rw [← h2, h1]⟩
        · rw [if_neg hlt] at h
          injection h with h1 h2
          injection h1 with h1
          exact ⟨sq + 1, h1.symm, by rw [← h2, h1]⟩

/-- A formatted invoice number is never the empty string. -/
theorem formatInvoiceNumber_ne_empty (y q : Nat) :
    formatInvoiceNumber y q ≠ "" := by
  intro hcon
  have hd : ("INV-".data ++ natDigits y ++ '-' :: padStart3 (natDigits q)) =
      ([] : List Char) := congrArg String.data hcon
  simp at hd

/-- C4: along any two consecutive successful generateNext calls in the same
current year, the numeric suffix of the second result is exactly one more than
the numeric suffix of the first. -/
theorem generateNext_suffix_succ (y : Nat) (st st1 st2 : Option String)
    (n1 n2 : String)
    (h1 : generateNext y st = (Except.ok n1, st1))
    (h2 : generateNext y st1 = (Except.ok n2, st2)) :
    numericSuffix n2 = numericSuffix n1 + 1 := by
  obtain ⟨q1, hn1, hst1⟩ := generateNext_ok y st n1 st1 h1
  rw [hst1] at h2
  simp only [generateNext] at h2
  rw [if_neg (by rw [hn1]; exact formatInvoiceNumber_ne_empty y q1)] at h2
  cases hp : parseInvoiceNumber n1 with
  | error e =>
    rw [hp] at h2
    injection h2 with h2a _
    injection h2a
  | ok p =>
    obtain ⟨a, b⟩ := p
    have hm : matchInvoicePattern n1 = some (a, b) := by
      unfold parseInvoiceNumber at hp
      cases hmm : matchInvoicePattern n1 with
      | some r => rw [hmm] at hp; injection hp with hr; rw [hr]
      | none => rw [hmm] at hp; injection hp
    rw [hn1] at hm
    obtain ⟨hay, hbq⟩ := matchInvoicePattern_format y q1 a b hm
    rw [hp] at h2
    replace h2 : (if a < y then
        ((Except.ok (formatInvoiceNumber y 1), some (formatInvoiceNumber y 1)) :
          Except String String × Option String)
      else
        (Except.ok (formatInvoiceNumber y (b + 1)),
          some (formatInvoiceNumber y (b + 1)))) = (Except.ok n2, st2) := h2
    rw [if_neg (by omega)] at h2
    injection h2 with h2a _
    injection h2a with h2a
    rw [← h2a, hn1, hbq, numericSuffix_format, numericSuffix_format]

/-- C4 witness: the concrete step across the three-digit boundary, from a
persisted INV-2024-998 through INV-2024-999 to INV-2024-1000. -/
theorem generateNext_suffix_succ_witness :
    generateNext 2024 (some "INV-2024-998") =
      (Except.ok "INV-2024-999", some "INV-2024-999") ∧
    generateNext 2024 (some "INV-2024-999") =
      (Except.ok "INV-2024-1000", some "INV-2024-1000") ∧
    numericSuffix "INV-2024-1000" = numericSuffix "INV-2024-999" + 1 :=
  ⟨by decide, by decide,
    generateNext_suffix_succ 2024 (some "INV-2024-998") (some "INV-2024-999")
      (some "INV-2024-1000") "INV-2024-999" "INV-2024-1000" (by decide) (by decide)⟩

/-! ## Invoice data model

Embedding of the InvoiceData / LineItem / PaymentInfo interfaces
(src/types/invoice.ts).  JavaScript numbers are exact rationals here; a
Partial value models both an absent and a null field as none. -/

section RatEval

attribute [local semireducible] Rat.add Rat.sub Rat.mul Rat.inv Rat.ofScientific

/-- One billable line item. -/
structure LineItem where
  id : String
  description : String
  quantity : ℚ
  rate : ℚ
  amount : ℚ
deriving DecidableEq

/-- Partial payment information. -/
structure PaymentInfo where
  upiId : Option String
  bankName : Option String
  accountNumber : Option String
  ifscCode : Option String
  accountHolderName : Option String
deriving DecidableEq

/-- The empty payment-info object. -/
def PaymentInfo.empty : PaymentInfo := ⟨none, none, none, none, none⟩

/-- Field-by-field object spread of payment infos, second argument wins
per present field. -/
def PaymentInfo.spread (a b : PaymentInfo) : PaymentInfo :=
  ⟨b.upiId <|> a.upiId, b.bankName <|> a.bankName,
   b.accountNumber <|> a.accountNumber, b.ifscCode <|> a.ifscCode,
   b.accountHolderName <|> a.accountHolderName⟩

/-- A partial InvoiceData record: every field optional, as produced by the
extraction strategies and consumed by the merge steps. -/
structure PartialInvoice where
  invoiceNumber : Option String
  invoiceDate : Option String
  dueDate : Option String
  clientName : Option String
  clientCompany : Option String
  clientEmail : Option String
  clientPhone : Option String
  clientAddress : Option String
  items : Option (List LineItem)
  currency : Option String
  subtotal : Option ℚ
  taxRate : Option ℚ
  taxAmount : Option ℚ
  total : Option ℚ
  paymentInfo : Option PaymentInfo
  notes : Option String
deriving DecidableEq

/-- The empty partial invoice ({}). -/
def PartialInvoice.empty : PartialInvoice :=
  ⟨none, none, none, none, none, none, none, none,
   none, none, none, none, none, none, none, none⟩

/-- Object spread {...a, ...b}: per field, the second record's value when
present, else the first record's. -/
def PartialInvoice.spread (a b : PartialInvoice) : PartialInvoice where
  invoiceNumber := b.invoiceNumber <|> a.invoiceNumber
  invoiceDate := b.invoiceDate <|> a.invoiceDate
  dueDate := b.dueDate <|> a.dueDate
  clientName := b.clientName <|> a.clientName
  clientCompany := b.clientCompany <|> a.clientCompany
  clientEmail := b.clientEmail <|> a.clientEmail
  clientPhone := b.clientPhone <|> a.clientPhone
  clientAddress := b.clientAddress <|> a.clientAddress
  items := b.items <|> a.items
  currency := b.currency <|> a.currency
  subtotal := b.subtotal <|> a.subtotal
  taxRate := b.taxRate <|> a.taxRate
  taxAmount := b.taxAmount <|> a.taxAmount
  total := b.total <|> a.total
  paymentInfo := b.paymentInfo <|> a.paymentInfo
  notes := b.notes <|> a.notes

/-- JavaScript truthiness of an optional number: false when absent, null or 0. -/
def qTruthy : Option ℚ → Bool
  | none => false
  | some x => decide (x ≠ 0)

/-- JavaScript truthiness of an optional string: false when absent, null or empty. -/
def sTruthy : Option String → Bool
  | none => false
  | some s => decide (s ≠ "")

/-- The test (xs && Array.isArray(xs) && xs.length > 0). -/
def itemsNonEmpty : Option (List LineItem) → Bool
  | none => false
  | some l => decide (l ≠ [])

/-- Computable rational floor (division of numerator by denominator rounded
toward negative infinity). -/
def ratFloor (q : ℚ) : ℤ := q.num.fdiv q.den

theorem ratFloor_eq_floor (q : ℚ) : ratFloor q = ⌊q⌋ := by
  rw [Rat.floor_def, ratFloor, Int.fdiv_eq_ediv _ (by positivity)]

/-- Rounding to two decimals: models parseFloat(x.toFixed(2)), which for the
non-negative amounts of this code rounds half away from zero at the third
decimal. -/
def round2 (x : ℚ) : ℚ := ((ratFloor (x * 100 + 1/2) : ℤ) : ℚ) / 100

/-- items.reduce((sum, item) => sum + item.amount, 0); the source's
(item.amount || 0) coincides with item.amount on numbers. -/
def sumAmounts (items : List LineItem) : ℚ :=
  items.foldl (fun s it => s + it.amount) 0

/-! ## Merge / reconciliation

Embedding of ExtractionEngine.mergeExtractionResults (engine.ts 1242-1341)
and ExtractionEngine.mergeResults (engine.ts 1347-1393), statement by
statement.  The current date string used for the invoiceDate default
(new Date().toISOString().split('T')[0]) is passed in as today. -/

/-- Item-list selection of mergeExtractionResults: AI items when present and
non-empty, else regex items when present and non-empty, else the empty list. -/
def selectedItems (regexResults aiResults : PartialInvoice) : List LineItem :=
  if itemsNonEmpty aiResults.items = true then aiResults.items.getD []
  else if itemsNonEmpty regexResults.items = true then regexResults.items.getD []
  else []

/-- merged.items assignment of mergeExtractionResults. -/
def meItems (regexResults aiResults m : PartialInvoice) : PartialInvoice :=
  { m with items := some (selectedItems regexResults aiResults) }

/-- dueDate preservation step:
if (aiResults.dueDate) merged.dueDate = aiResults.dueDate;
else if (regexResults.dueDate && !merged.dueDate) merged.dueDate = regexResults.dueDate. -/
def meDueDate (regexResults aiResults m : PartialInvoice) : PartialInvoice :=
  if sTruthy aiResults.dueDate = true then { m with dueDate := aiResults.dueDate }
  else if sTruthy regexResults.dueDate = true ∧ sTruthy m.dueDate = false then
    { m with dueDate := regexResults.dueDate }
  else m

/-- taxRate preservation step:
if (aiResults.taxRate !== undefined && aiResults.taxRate !== null) take the AI
value, else take the regex value when present and merged.taxRate is falsy. -/
def meTaxRate (regexResults aiResults m : PartialInvoice) : PartialInvoice :=
  if aiResults.taxRate.isSome = true then { m with taxRate := aiResults.taxRate }
  else if regexResults.taxRate.isSome = true ∧ qTruthy m.taxRate = false then
    { m with taxRate := regexResults.taxRate }
  else m

/-- taxAmount preservation step, same shape as the taxRate step. -/
def meTaxAmount (regexResults aiResults m : PartialInvoice) : PartialInvoice :=
  if aiResults.taxAmount.isSome = true then { m with taxAmount := aiResults.taxAmount }
  else if regexResults.taxAmount.isSome = true ∧ qTruthy m.taxAmount = false then
    { m with taxAmount := regexResults.taxAmount }
  else m

/-- First recomputation block of mergeExtractionResults:
if (merged.items && merged.items.length > 0 && merged.taxRate && merged.taxRate > 0)
then recompute subtotal, derive taxAmount when falsy, and set
total = parseFloat((subtotal + (merged.taxAmount || 0)).toFixed(2)). -/
def meRecompute1 (m : PartialInvoice) : PartialInvoice :=
  if m.items.getD [] ≠ [] ∧ qTruthy m.taxRate = true ∧ 0 < m.taxRate.getD 0 then
    let subtotal := sumAmounts (m.items.getD [])
    let m1 : PartialInvoice := { m with subtotal := some subtotal }
    let m2 : PartialInvoice :=
      if qTruthy m1.taxAmount = false then
        { m1 with taxAmount := some (round2 (subtotal * m1.taxRate.getD 0 / 100)) }
      else m1
    { m2 with total := some (round2 (subtotal + m2.taxAmount.getD 0)) }
  else m

/-- Payment-info union step:
if (regexResults.paymentInfo || aiResults.paymentInfo)
merged.paymentInfo = { ...regexResults.paymentInfo, ...aiResults.paymentInfo }. -/
def mePayment (regexResults aiResults m : PartialInvoice) : PartialInvoice :=
  if regexResults.paymentInfo.isSome = true ∨ aiResults.paymentInfo.isSome = true then
    { m with paymentInfo := some (PaymentInfo.spread
        (regexResults.paymentInfo.getD PaymentInfo.empty)
        (aiResults.paymentInfo.getD PaymentInfo.empty)) }
  else m

/-- Second recomputation block of mergeExtractionResults:
if (merged.items && merged.items.length > 0) set subtotal to the item sum,
then take the AI total when present, else subtotal + (merged.taxAmount || 0);
else if (merged.total === undefined && merged.subtotal !== undefined)
total = subtotal. -/
def meRecompute2 (aiResults m : PartialInvoice) : PartialInvoice :=
  if m.items.getD [] ≠ [] then
    let subtotal := sumAmounts (m.items.getD [])
    let m1 : PartialInvoice := { m with subtotal := some subtotal }
    if aiResults.total.isSome = true then { m1 with total := aiResults.total }
    else { m1 with total := some (subtotal + m1.taxAmount.getD 0) }
  else if m.total.isNone = true ∧ m.subtotal.isSome = true then
    { m with total := m.subtotal }
  else m

/-- Default step: if (!merged.currency) merged.currency = 'INR'. -/
def meCurrency (m : PartialInvoice) : PartialInvoice :=
  if sTruthy m.currency = false then { m with currency := some "INR" } else m

/-- Default step: if (!merged.invoiceDate) merged.invoiceDate = today. -/
def meInvoiceDate (today : String) (m : PartialInvoice) : PartialInvoice :=
  if sTruthy m.invoiceDate = false then { m with invoiceDate := some today } else m

/-- Final step of mergeExtractionResults: if (!merged.items) merged.items = []. -/
def meEnsureItems (m : PartialInvoice) : PartialInvoice :=
  if m.items.isNone = true then { m with items := some [] } else m

/-- ExtractionEngine.mergeExtractionResults(regexResults, aiResults)
(engine.ts 1242-1341): the spread { ...regexResults, ...aiResults } followed by
the item selection, the dueDate/taxRate/taxAmount preservation steps, the two
total-recomputation blocks, the payment-info union and the default filling, in
the statement order of the source. -/
def mergeExtractionResults (today : String)
    (regexResults aiResults : PartialInvoice) : PartialInvoice :=
  meEnsureItems (meInvoiceDate today (meCurrency
    (meRecompute2 aiResults (mePayment regexResults aiResults
      (meRecompute1 (meTaxAmount regexResults aiResults
        (meTaxRate regexResults aiResults (meDueDate regexResults aiResults
          (meItems regexResults aiResults
            (PartialInvoice.spread regexResults aiResults))))))))))

/-- Subtotal recomputation of mergeResults:
if (!merged.subtotal || Math.abs(merged.subtotal - calculatedSubtotal) > 0.01)
merged.subtotal = calculatedSubtotal, with calculatedSubtotal the item sum. -/
def mrSubtotal (m : PartialInvoice) : PartialInvoice :=
  if qTruthy m.subtotal = false ∨
      1/100 < |m.subtotal.getD 0 - sumAmounts (m.items.getD [])| then
    { m with subtotal := some (sumAmounts (m.items.getD [])) }
  else m

/-- Tax recomputation of mergeResults:
if (merged.taxRate !== undefined && merged.taxRate !== null && merged.taxRate > 0)
merged.taxAmount = parseFloat(((merged.subtotal * merged.taxRate) / 100).toFixed(2)). -/
def mrTaxAmount (m : PartialInvoice) : PartialInvoice :=
  if m.taxRate.isSome = true ∧ 0 < m.taxRate.getD 0 then
    { m with taxAmount := some (round2 (m.subtotal.getD 0 * m.taxRate.getD 0 / 100)) }
  else m

/-- Total recomputation of mergeResults:
if (!merged.total || (merged.subtotal &&
    Math.abs(merged.total - (merged.subtotal + (merged.taxAmount || 0))) > 0.01))
merged.total = merged.subtotal + (merged.taxAmount || 0). -/
def mrTotal (m : PartialInvoice) : PartialInvoice :=
  if qTruthy m.total = false ∨
      (qTruthy m.subtotal = true ∧
        1/100 < |m.total.getD 0 - (m.subtotal.getD 0 + m.taxAmount.getD 0)|) then
    { m with total := some (m.subtotal.getD 0 + m.taxAmount.getD 0) }
  else m

/-- Financial block of mergeResults, entered only when merged.items is
non-empty: the subtotal, taxAmount and total recomputations in order. -/
def mrFinancials (m : PartialInvoice) : PartialInvoice :=
  if m.items.getD [] ≠ [] then mrTotal (mrTaxAmount (mrSubtotal m)) else m

def mergeResults (today : String) (extracted : PartialInvoice) : PartialInvoice :=
  mrFinancials (meEnsureItems (meInvoiceDate today (meCurrency extracted)))

/-! ## Projection lemmas for the merge steps -/

theorem meItems_items (rx ai m : PartialInvoice) :
    (meItems rx ai m).items = some (selectedItems rx ai) := rfl

theorem meDueDate_proj (rx ai m : PartialInvoice) :
    (meDueDate rx ai m).items = m.items ∧ (meDueDate rx ai m).subtotal = m.subtotal ∧
    (meDueDate rx ai m).taxRate = m.taxRate ∧ (meDueDate rx ai m).taxAmount = m.taxAmount ∧
    (meDueDate rx ai m).total = m.total := by
  unfold meDueDate
  split_ifs <;> exact ⟨rfl, rfl, rfl, rfl, rfl⟩

theorem meTaxRate_proj (rx ai m : PartialInvoice) :
    (meTaxRate rx ai m).items = m.items ∧ (meTaxRate rx ai m).subtotal = m.subtotal ∧
    (meTaxRate rx ai m).taxAmount = m.taxAmount ∧ (meTaxRate rx ai m).total = m.total := by
  unfold meTaxRate
  split_ifs <;> exact ⟨rfl, rfl, rfl, rfl⟩

theorem meTaxAmount_proj (rx ai m : PartialInvoice) :
    (meTaxAmount rx ai m).items = m.items ∧ (meTaxAmount rx ai m).subtotal = m.subtotal ∧
    (meTaxAmount rx ai m).total = m.total := by
  unfold meTaxAmount
  split_ifs <;> exact ⟨rfl, rfl, rfl⟩

theorem meRecompute1_items (m : PartialInvoice) :
    (meRecompute1 m).items = m.items ∧ (meRecompute1 m).taxRate = m.taxRate := by
  unfold meRecompute1
  split_ifs <;> refine ⟨?_, ?_⟩ <;>
    simp [apply_ite PartialInvoice.items, apply_ite PartialInvoice.taxRate, ite_self]

theorem mePayment_proj (rx ai m : PartialInvoice) :
    (mePayment rx ai m).items = m.items ∧ (mePayment rx ai m).subtotal = m.subtotal ∧
    (mePayment rx ai m).taxRate = m.taxRate ∧ (mePayment rx ai m).taxAmount = m.taxAmount ∧
    (mePayment rx ai m).total = m.total := by
  unfold mePayment
  split_ifs <;> exact ⟨rfl, rfl, rfl, rfl, rfl⟩

theorem meRecompute2_items (ai m : PartialInvoice) :
    (meRecompute2 ai m).items = m.items ∧ (meRecompute2 ai m).taxAmount = m.taxAmount := by
  unfold meRecompute2
  split_ifs <;> refine ⟨?_, ?_⟩ <;>
    simp [apply_ite PartialInvoice.items, apply_ite PartialInvoice.taxAmount, ite_self]

/-- Behaviour of the second recomputation block on a non-empty item list. -/
theorem meRecompute2_spec (ai m : PartialInvoice) (h : m.items.getD [] ≠ []) :
    (meRecompute2 ai m).subtotal = some (sumAmounts (m.items.getD [])) ∧
    (ai.total = none →
      (meRecompute2 ai m).total =
        some (sumAmounts (m.items.getD []) + m.taxAmount.getD 0)) := by
  unfold meRecompute2
  rw [if_pos h]
  constructor
  · split_ifs <;> rfl
  · intro h0
    rw [if_neg (by simp [h0])]

theorem meCurrency_proj (m : PartialInvoice) :
    (meCurrency m).items = m.items ∧ (meCurrency m).subtotal = m.subtotal ∧
    (meCurrency m).taxRate = m.taxRate ∧ (meCurrency m).taxAmount = m.taxAmount ∧
    (meCurrency m).total = m.total := by
  unfold meCurrency
  split_ifs <;> exact ⟨rfl, rfl, rfl, rfl, rfl⟩

theorem meInvoiceDate_proj (today : String) (m : PartialInvoice) :
    (meInvoiceDate today m).items = m.items ∧ (meInvoiceDate today m).subtotal = m.subtotal ∧
    (meInvoiceDate today m).taxRate = m.taxRate ∧ (meInvoiceDate today m).taxAmount = m.taxAmount ∧
    (meInvoiceDate today m).total = m.total := by
  unfold meInvoiceDate
  split_ifs <;> exact ⟨rfl, rfl, rfl, rfl, rfl⟩

theorem meEnsureItems_proj (m : PartialInvoice) :
    (meEnsureItems m).items = some (m.items.getD []) ∧
    (meEnsureItems m).subtotal = m.subtotal ∧
    (meEnsureItems m).taxRate = m.taxRate ∧ (meEnsureItems m).taxAmount = m.taxAmount ∧
    (meEnsureItems m).total = m.total := by
  unfold meEnsureItems
  cases h : m.items with
  | none => simp [h]
  | some l => simp [h]

/-- The item list of the merged result, as a function of the two inputs. -/
theorem mergeExtractionResults_items_eq (today : String) (rx ai : PartialInvoice) :
    (mergeExtractionResults today rx ai).items = some (selectedItems rx ai) := by
  unfold mergeExtractionResults
  rw [(meEnsureItems_proj _).1,
      (meInvoiceDate_proj _ _).1, (meCurrency_proj _).1,
      (meRecompute2_items _ _).1, (mePayment_proj _ _ _).1,
      (meRecompute1_items _).1, (meTaxAmount_proj _ _ _).1,
      (meTaxRate_proj _ _ _).1, (meDueDate_proj _ _ _).1,
      meItems_items]
  rfl

/-! ## Claim theorems about the merge functions -/

/-- C7: mergeExtractionResults selects the item list by precedence — the AI
items when present and non-empty, else the regex items when present and
non-empty, else the empty list — and carries the selected list into the output
unchanged, with no truncation or cap. -/
theorem mergeExtractionResults_items_precedence (today : String)
    (rx ai : PartialInvoice) :
    (mergeExtractionResults today rx ai).items =
      some (if itemsNonEmpty ai.items = true then ai.items.getD []
            else if itemsNonEmpty rx.items = true then rx.items.getD []
            else []) :=
  mergeExtractionResults_items_eq today rx ai

/-- C2 (amended): in the output of mergeExtractionResults, when the merged
item list is non-empty, subtotal always equals the sum of the item amounts;
total equals subtotal plus taxAmount (0 when absent) whenever the AI result
supplied no total of its own. -/
theorem mergeExtractionResults_totals (today : String) (rx ai : PartialInvoice)
    (hne : (mergeExtractionResults today rx ai).items.getD [] ≠ []) :
    (mergeExtractionResults today rx ai).subtotal =
      some (sumAmounts ((mergeExtractionResults today rx ai).items.getD [])) ∧
    (ai.total = none →
      (mergeExtractionResults today rx ai).total =
        some (sumAmounts ((mergeExtractionResults today rx ai).items.getD []) +
          (mergeExtractionResults today rx ai).taxAmount.getD 0)) := by
  have hitems := mergeExtractionResults_items_eq today rx ai
  rw [hitems, Option.getD_some] at hne ⊢
  set M := mePayment rx ai (meRecompute1 (meTaxAmount rx ai
    (meTaxRate rx ai (meDueDate rx ai
      (meItems rx ai (PartialInvoice.spread rx ai)))))) with hM
  have hMitems : M.items = some (selectedItems rx ai) := by
    rw [hM, (mePayment_proj _ _ _).1, (meRecompute1_items _).1,
        (meTaxAmount_proj _ _ _).1, (meTaxRate_proj _ _ _).1,
        (meDueDate_proj _ _ _).1, meItems_items]
  have hout : mergeExtractionResults today rx ai =
      meEnsureItems (meInvoiceDate today (meCurrency (meRecompute2 ai M))) := by
    rw [hM]; rfl
  have hMne : M.items.getD [] ≠ [] := by rw [hMitems]; simpa using hne
  obtain ⟨hsub, htot⟩ := meRecompute2_spec ai M hMne
  constructor
  · rw [hout, (meEnsureItems_proj _).2.1, (meInvoiceDate_proj _ _).2.1,
        (meCurrency_proj _).2.1, hsub, hMitems]
    rfl
  · intro h0
    rw [hout, (meEnsureItems_proj _).2.2.2.2, (meInvoiceDate_proj _ _).2.2.2.2,
        (meCurrency_proj _).2.2.2.2, htot h0,
        show (meEnsureItems (meInvoiceDate today (meCurrency
          (meRecompute2 ai M)))).taxAmount = M.taxAmount by
            rw [(meEnsureItems_proj _).2.2.2.1, (meInvoiceDate_proj _ _).2.2.2.1,
                (meCurrency_proj _).2.2.2.1, (meRecompute2_items _ _).2],
        hMitems]
    rfl

/-- A sample line item with amount 100. -/
def sampleItem : LineItem := ⟨"item-1", "Service", 1, 100, 100⟩

/-- A regex result carrying one extracted item. -/
def regexOneItem : PartialInvoice :=
  { PartialInvoice.empty with items := some [sampleItem] }

/-- An AI result that contributed one item and its own disagreeing total. -/
def aiDisagreeingTotal : PartialInvoice :=
  { PartialInvoice.empty with items := some [sampleItem], total := some 999 }

/-- C2 witness: with one regex item of amount 100 and a fully empty AI result,
the merged subtotal is the item sum and the total is subtotal plus the default
tax amount 0. -/
theorem mergeExtractionResults_totals_witness :
    (mergeExtractionResults "2025-01-01" regexOneItem PartialInvoice.empty).subtotal =
      some (sumAmounts ((mergeExtractionResults "2025-01-01" regexOneItem
        PartialInvoice.empty).items.getD [])) ∧
    (PartialInvoice.empty.total = none →
      (mergeExtractionResults "2025-01-01" regexOneItem PartialInvoice.empty).total =
        some (sumAmounts ((mergeExtractionResults "2025-01-01" regexOneItem
          PartialInvoice.empty).items.getD []) +
          (mergeExtractionResults "2025-01-01" regexOneItem
            PartialInvoice.empty).taxAmount.getD 0)) :=
  mergeExtractionResults_totals "2025-01-01" regexOneItem PartialInvoice.empty (by decide)

/-- C2 counterexample: when the AI result supplies its own total (999) that
disagrees with the recomputed subtotal (100), the merged output keeps the AI
total, so total differs from subtotal plus taxAmount. -/
theorem mergeExtractionResults_keeps_ai_total :
    (mergeExtractionResults "2025-01-01" PartialInvoice.empty aiDisagreeingTotal).subtotal =
      some 100 ∧
    (mergeExtractionResults "2025-01-01" PartialInvoice.empty aiDisagreeingTotal).taxAmount =
      none ∧
    (mergeExtractionResults "2025-01-01" PartialInvoice.empty aiDisagreeingTotal).total =
      some 999 ∧
    (999 : ℚ) ≠ 100 + 0 := by
  refine ⟨by decide, by decide, by decide, by decide⟩

/-- Projections of the subtotal step. -/
theorem mrSubtotal_proj (m : PartialInvoice) :
    (mrSubtotal m).items = m.items ∧ (mrSubtotal m).taxRate = m.taxRate ∧
    (mrSubtotal m).taxAmount = m.taxAmount ∧ (mrSubtotal m).total = m.total := by
  unfold mrSubtotal
  split_ifs <;> exact ⟨rfl, rfl, rfl, rfl⟩

/-- The subtotal step keeps a truthy subtotal within 0.01 of the item sum and
otherwise replaces it with the item sum. -/
theorem mrSubtotal_subtotal (m : PartialInvoice) :
    (mrSubtotal m).subtotal =
      some (if qTruthy m.subtotal = true ∧
          ¬ 1/100 < |m.subtotal.getD 0 - sumAmounts (m.items.getD [])|
        then m.subtotal.getD 0 else sumAmounts (m.items.getD [])) := by
  unfold mrSubtotal
  by_cases hc : qTruthy m.subtotal = false ∨
      1/100 < |m.subtotal.getD 0 - sumAmounts (m.items.getD [])|
  · have hnc : ¬ (qTruthy m.subtotal = true ∧
        ¬ 1/100 < |m.subtotal.getD 0 - sumAmounts (m.items.getD [])|) := by
      intro hcon
      rcases hc with h | h
      · rw [hcon.1] at h; cases h
      · exact hcon.2 h
    rw [if_pos hc, if_neg hnc]
  · push_neg at hc
    rw [if_neg (by push_neg; exact hc),
        if_pos ⟨by simpa using hc.1, not_lt.mpr hc.2⟩]
    show m.subtotal = some (m.subtotal.getD 0)
    cases h : m.subtotal with
    | none => rw [h] at hc; simp [qTruthy] at hc
    | some v => simp [h]

theorem mrTaxAmount_proj (m : PartialInvoice) :
    (mrTaxAmount m).items = m.items ∧ (mrTaxAmount m).subtotal = m.subtotal ∧
    (mrTaxAmount m).taxRate = m.taxRate ∧ (mrTaxAmount m).total = m.total := by
  unfold mrTaxAmount
  split_ifs <;> exact ⟨rfl, rfl, rfl, rfl⟩

theorem mrTaxAmount_taxAmount (m : PartialInvoice) (r : ℚ)
    (hr : m.taxRate = some r) (hr0 : 0 < r) :
    (mrTaxAmount m).taxAmount = some (round2 (m.subtotal.getD 0 * r / 100)) := by
  unfold mrTaxAmount
  rw [if_pos ⟨by rw [hr]; rfl, by rw [hr]; exact hr0⟩]
  show some (round2 (m.subtotal.getD 0 * m.taxRate.getD 0 / 100)) = _
  rw [hr]
  rfl

theorem mrTotal_proj (m : PartialInvoice) :
    (mrTotal m).items = m.items ∧ (mrTotal m).subtotal = m.subtotal ∧
    (mrTotal m).taxAmount = m.taxAmount ∧ (mrTotal m).taxRate = m.taxRate := by
  unfold mrTotal
  split_ifs <;> exact ⟨rfl, rfl, rfl, rfl⟩

theorem mrTotal_spec (m : PartialInvoice) :
    ((qTruthy m.total = false ∨
        (qTruthy m.subtotal = true ∧
          1/100 < |m.total.getD 0 - (m.subtotal.getD 0 + m.taxAmount.getD 0)|)) →
      (mrTotal m).total = some (m.subtotal.getD 0 + m.taxAmount.getD 0)) ∧
    (¬ (qTruthy m.total = false ∨
        (qTruthy m.subtotal = true ∧
          1/100 < |m.total.getD 0 - (m.subtotal.getD 0 + m.taxAmount.getD 0)|)) →
      (mrTotal m).total = m.total) := by
  unfold mrTotal
  constructor
  · intro hc
    rw [if_pos hc]
  · intro hc
    rw [if_neg hc]

/-- Behaviour of the financial block of mergeResults on a non-empty item list
with a positive tax rate: the reconciled subtotal is the incoming one exactly
when that is truthy and within 0.01 of the item sum, else the item sum. -/
theorem mrFinancials_spec (m : PartialInvoice) (r : ℚ)
    (hne : m.items.getD [] ≠ []) (hr : m.taxRate = some r) (hr0 : 0 < r) :
    ∃ s, s = (if qTruthy m.subtotal = true ∧
          ¬ 1/100 < |m.subtotal.getD 0 - sumAmounts (m.items.getD [])|
        then m.subtotal.getD 0 else sumAmounts (m.items.getD [])) ∧
      (mrFinancials m).subtotal = some s ∧
      (mrFinancials m).taxAmount = some (round2 (s * r / 100)) ∧
      ((qTruthy m.total = false ∨
          (s ≠ 0 ∧ 1/100 < |m.total.getD 0 - (s + round2 (s * r / 100))|)) →
        (mrFinancials m).total = some (s + round2 (s * r / 100))) ∧
      (¬ (qTruthy m.total = false ∨
          (s ≠ 0 ∧ 1/100 < |m.total.getD 0 - (s + round2 (s * r / 100))|)) →
        (mrFinancials m).total = m.total) := by
  set s := if qTruthy m.subtotal = true ∧
      ¬ 1/100 < |m.subtotal.getD 0 - sumAmounts (m.items.getD [])|
    then m.subtotal.getD 0 else sumAmounts (m.items.getD []) with hs
  have hsub1 : (mrSubtotal m).subtotal = some s := mrSubtotal_subtotal m
  have htr : (mrSubtotal m).taxRate = some r := by
    rw [(mrSubtotal_proj m).2.1, hr]
  have hta : (mrTaxAmount (mrSubtotal m)).taxAmount = some (round2 (s * r / 100)) := by
    rw [mrTaxAmount_taxAmount _ r htr hr0, hsub1]
    rfl
  have hsub2 : (mrTaxAmount (mrSubtotal m)).subtotal = some s := by
    rw [(mrTaxAmount_proj _).2.1, hsub1]
  have htot0 : (mrTaxAmount (mrSubtotal m)).total = m.total := by
    rw [(mrTaxAmount_proj _).2.2.2, (mrSubtotal_proj m).2.2.2]
  have hfin : mrFinancials m = mrTotal (mrTaxAmount (mrSubtotal m)) := by
    unfold mrFinancials
    rw [if_pos hne]
  have hcond : (qTruthy (mrTaxAmount (mrSubtotal m)).total = false ∨
      (qTruthy (mrTaxAmount (mrSubtotal m)).subtotal = true ∧
        1/100 < |(mrTaxAmount (mrSubtotal m)).total.getD 0 -
          ((mrTaxAmount (mrSubtotal m)).subtotal.getD 0 +
            (mrTaxAmount (mrSubtotal m)).taxAmount.getD 0)|)) ↔
      (qTruthy m.total = false ∨
        (s ≠ 0 ∧ 1/100 < |m.total.getD 0 - (s + round2 (s * r / 100))|)) := by
    rw [htot0, hsub2, hta]
    simp [qTruthy]
  refine ⟨s, hs, ?_, ?_, ?_, ?_⟩
  · rw [hfin, (mrTotal_proj _).2.1, hsub2]
  · rw [hfin, (mrTotal_proj _).2.2.1, hta]
  · intro hc
    rw [hfin, (mrTotal_spec _).1 (hcond.2 hc), hsub2, hta]
    rfl
  · intro hc
    rw [hfin, (mrTotal_spec _).2 ((not_congr hcond).2 hc), htot0]

/-- C6 (amended): for a partial invoice with a non-empty item list and a
positive tax rate, mergeResults reconciles the subtotal to the incoming
subtotal exactly when that is truthy (non-zero) and within 0.01 of the item
sum, else to the item sum; sets taxAmount to round2 of that subtotal times
the rate over 100; and recomputes total = subtotal + taxAmount exactly when
the incoming total is falsy (absent or zero), or when the reconciled subtotal
is non-zero and the incoming total differs from that sum by more than 0.01;
otherwise the incoming total is kept as-is. -/
theorem mergeResults_tax_invariant (today : String) (inp : PartialInvoice)
    (l : List LineItem) (r : ℚ)
    (hi : inp.items = some l) (hl : l ≠ []) (hr : inp.taxRate = some r)
    (hr0 : 0 < r) (hr100 : r ≤ 100) :
    ∃ s, s = (if qTruthy inp.subtotal = true ∧
          ¬ 1/100 < |inp.subtotal.getD 0 - sumAmounts l|
        then inp.subtotal.getD 0 else sumAmounts l) ∧
      (mergeResults today inp).subtotal = some s ∧
      (mergeResults today inp).taxAmount = some (round2 (s * r / 100)) ∧
      ((qTruthy inp.total = false ∨
          (s ≠ 0 ∧ 1/100 < |inp.total.getD 0 - (s + round2 (s * r / 100))|)) →
        (mergeResults today inp).total = some (s + round2 (s * r / 100))) ∧
      (¬ (qTruthy inp.total = false ∨
          (s ≠ 0 ∧ 1/100 < |inp.total.getD 0 - (s + round2 (s * r / 100))|)) →
        (mergeResults today inp).total = inp.total) := by
  set N := meEnsureItems (meInvoiceDate today (meCurrency inp)) with hN
  have hNitems : N.items = some l := by
    rw [hN, (meEnsureItems_proj _).1, (meInvoiceDate_proj _ _).1,
        (meCurrency_proj _).1, hi]
    rfl
  have hNsub : N.subtotal = inp.subtotal := by
    rw [hN, (meEnsureItems_proj _).2.1, (meInvoiceDate_proj _ _).2.1,
        (meCurrency_proj _).2.1]
  have hNtr : N.taxRate = some r := by
    rw [hN, (meEnsureItems_proj _).2.2.1, (meInvoiceDate_proj _ _).2.2.1,
        (meCurrency_proj _).2.2.1, hr]
  have hNtot : N.total = inp.total := by
    rw [hN, (meEnsureItems_proj _).2.2.2.2, (meInvoiceDate_proj _ _).2.2.2.2,
        (meCurrency_proj _).2.2.2.2]
  have hNne : N.items.getD [] ≠ [] := by
    rw [hNitems]
    simpa using hl
  have hmr : mergeResults today inp = mrFinancials N := by rw [hN]; rfl
  obtain ⟨s, hspin, h1, h2, h3, h4⟩ := mrFinancials_spec N r hNne hNtr hr0
  rw [hNsub, hNitems] at hspin
  simp only [Option.getD_some] at hspin
  rw [hNtot] at h3 h4
  exact ⟨s, hspin, by rw [hmr]; exact h1, by rw [hmr]; exact h2,
    fun hc => by rw [hmr]; exact h3 hc,
    fun hc => by rw [hmr]; exact h4 hc⟩

/-- An extracted partial invoice with one item of amount 100 and tax rate 10,
and no total of its own. -/
def taxOnlyInput : PartialInvoice :=
  { PartialInvoice.empty with items := some [sampleItem], taxRate := some 10 }

/-- Same input but carrying a total of 110.005, within 0.01 of the exact
recomputation 110. -/
def taxKeptTotalInput : PartialInvoice :=
  { taxOnlyInput with total := some (22001/200) }

/-- C6 witness: one item of amount 100 and tax rate 10 with no incoming
total. -/
theorem mergeResults_tax_invariant_witness :
    ∃ s, s = (if qTruthy taxOnlyInput.subtotal = true ∧
          ¬ 1/100 < |taxOnlyInput.subtotal.getD 0 - sumAmounts [sampleItem]|
        then taxOnlyInput.subtotal.getD 0 else sumAmounts [sampleItem]) ∧
      (mergeResults "2025-01-01" taxOnlyInput).subtotal = some s ∧
      (mergeResults "2025-01-01" taxOnlyInput).taxAmount = some (round2 (s * 10 / 100)) ∧
      ((qTruthy taxOnlyInput.total = false ∨
          (s ≠ 0 ∧ 1/100 < |taxOnlyInput.total.getD 0 - (s + round2 (s * 10 / 100))|)) →
        (mergeResults "2025-01-01" taxOnlyInput).total = some (s + round2 (s * 10 / 100))) ∧
      (¬ (qTruthy taxOnlyInput.total = false ∨
          (s ≠ 0 ∧ 1/100 < |taxOnlyInput.total.getD 0 - (s + round2 (s * 10 / 100))|)) →
        (mergeResults "2025-01-01" taxOnlyInput).total = taxOnlyInput.total) :=
  mergeResults_tax_invariant "2025-01-01" taxOnlyInput [sampleItem] 10
    rfl (by decide) rfl (by norm_num) (by norm_num)

/-- C6 counterexample: an incoming total of 110.005 differs from the exact
recomputation 100 + 10 = 110 by only 0.005, so mergeResults keeps it, and the
output total is not exactly subtotal + taxAmount. -/
theorem mergeResults_keeps_close_total :
    (mergeResults "2025-01-01" taxKeptTotalInput).subtotal = some 100 ∧
    (mergeResults "2025-01-01" taxKeptTotalInput).taxAmount = some 10 ∧
    (mergeResults "2025-01-01" taxKeptTotalInput).total = some (22001/200) ∧
    (22001/200 : ℚ) ≠ 100 + 10 :=
  ⟨by decide, by decide, by decide, by decide⟩

/-! ## Character classes and scanning combinators

Helpers for translating the JavaScript regular expressions of the extraction
engine.  Character classes follow the ASCII semantics of the source patterns;
matching at a position follows the backtracking semantics of the JavaScript
engine (leftmost match, ordered alternation, lazy or greedy quantifiers as in
each pattern), and global scans advance through the string exactly as
RegExp.exec does with the g flag. -/

/-- Whitespace, the regex class \s restricted to its ASCII members. -/
def isWsCh (c : Char) : Bool :=
  c = ' ' || c = '\t' || c = '\n' || c = '\r' || c.toNat = 11 || c.toNat = 12

/-- ASCII uppercase letter, the class [A-Z]. -/
def isUpperCh (c : Char) : Bool := 65 ≤ c.toNat && c.toNat ≤ 90

/-- ASCII lowercase letter, the class [a-z]. -/
def isLowerCh (c : Char) : Bool := 97 ≤ c.toNat && c.toNat ≤ 122

/-- ASCII letter, the class [A-Za-z]. -/
def isAlphaCh (c : Char) : Bool := isUpperCh c || isLowerCh c

/-- ASCII letter or digit. -/
def isAlnumCh (c : Char) : Bool := isDigitCh c || isAlphaCh c

/-- Word character, the class \w = [A-Za-z0-9_]. -/
def isWordCh (c : Char) : Bool := isAlnumCh c || c = '_'

/-- ASCII uppercase conversion of one character
(String.prototype.toUpperCase on the characters used here). -/
def toUpperCh (c : Char) : Char :=
  if isLowerCh c then Char.ofNat (c.toNat - 32) else c

/-- ASCII lowercase conversion of one character. -/
def toLowerCh (c : Char) : Char :=
  if isUpperCh c then Char.ofNat (c.toNat + 32) else c

/-- Case-insensitive character comparison (the i flag). -/
def ciEqCh (a b : Char) : Bool := toLowerCh a = toLowerCh b

/-- Strip a literal from the front of the input, case-insensitively; returns
the rest on success. -/
def ciStrip : List Char → List Char → Option (List Char)
  | [], cs => some cs
  | _, [] => none
  | l :: ls, c :: cs => if ciEqCh l c then ciStrip ls cs else none

/-- Strip a literal from the front of the input, case-sensitively. -/
def csStrip : List Char → List Char → Option (List Char)
  | [], cs => some cs
  | _, [] => none
  | l :: ls, c :: cs => if l = c then csStrip ls cs else none

/-- Greedy \s* . -/
def dropWs (cs : List Char) : List Char := cs.dropWhile isWsCh

/-- Greedy \s+ : at least one whitespace character, then the rest. -/
def ws1 : List Char → Option (List Char)
  | [] => none
  | c :: cs => if isWsCh c then some (dropWs cs) else none

/-- String.prototype.trim. -/
def trimChars (l : List Char) : List Char :=
  ((l.dropWhile isWsCh).reverse.dropWhile isWsCh).reverse

/-- Substring test at successive positions, driven by fuel. -/
def containsFrom : Nat → List Char → List Char → Bool
  | 0, _, _ => false
  | fuel+1, hay, needle =>
    needle.isPrefixOf hay ||
      (match hay with
       | [] => false
       | _ :: t => containsFrom fuel t needle)

/-- Case-sensitive substring test, String.prototype.includes. -/
def containsStr (hay needle : List Char) : Bool :=
  containsFrom (hay.length + 1) hay needle

/-- Lowercase a character list (String.prototype.toLowerCase). -/
def lowerChars (l : List Char) : List Char := l.map toLowerCh

/-- Uppercase a character list (String.prototype.toUpperCase). -/
def upperChars (l : List Char) : List Char := l.map toUpperCh

/-- Word-boundary test \b between an optional previous character and a next
character (none meaning start or end of input). -/
def boundary (prev next : Option Char) : Bool :=
  (match prev with | none => false | some c => isWordCh c) ≠
  (match next with | none => false | some c => isWordCh c)

/-- Lazy extension of a character-class group: at each position first try the
continuation on the group collected so far, then extend by one class character
(the semantics of a lazy quantifier such as [A-Za-z\s()]+? followed by the
rest of the pattern). -/
def lazyExtend {α : Type} (cls : Char → Bool)
    (k : List Char → List Char → Option α) :
    List Char → List Char → Option α
  | acc, cs =>
    match k acc cs with
    | some r => some r
    | none =>
      match cs with
      | [] => none
      | c :: rest => if cls c then lazyExtend cls k (acc ++ [c]) rest else none

/-- Ordered alternation of case-insensitive literals, each tried together
with the continuation (JavaScript alternation backtracks into later
alternatives when the continuation fails). -/
def tryCiAlts {α : Type} (alts : List (List Char))
    (cs : List Char) (k : List Char → Option α) : Option α :=
  match alts with
  | [] => none
  | a :: rest =>
    (match ciStrip a cs with
     | some cs2 => k cs2
     | none => none) <|> tryCiAlts rest cs k

/-- Ordered alternation of case-sensitive literals with continuation. -/
def tryCsAlts {α : Type} (alts : List (List Char))
    (cs : List Char) (k : List Char → Option α) : Option α :=
  match alts with
  | [] => none
  | a :: rest =>
    (match csStrip a cs with
     | some cs2 => k cs2
     | none => none) <|> tryCsAlts rest cs k

/-- A maximal run of decimal digits, at least one (greedy \d+). -/
def digits1 (cs : List Char) : Option (List Char × List Char) :=
  let ds := cs.takeWhile isDigitCh
  if ds = [] then none else some (ds, cs.drop ds.length)

/-- Greedy (?:,\d+)* — comma-separated digit groups, collected maximally;
each group keeps its leading comma. -/
def commaGroups : Nat → List Char → List (List Char) × List Char
  | 0, cs => ([], cs)
  | fuel+1, cs =>
    match cs with
    | ',' :: rest =>
      match digits1 rest with
      | some (ds, rest2) =>
        let (gs, r) := commaGroups fuel rest2
        ((',' :: ds) :: gs, r)
      | none => ([], cs)
    | _ => ([], cs)

/-- The amount token \d+(?:,\d+)*(?:\.\d{2})? matched greedily with no
trailing context (end of pattern): digits, then all comma groups, then the
two-decimal fraction when present.  Returns the matched characters and the
rest. -/
def amountNoCtx (cs : List Char) : Option (List Char × List Char) :=
  match digits1 cs with
  | none => none
  | some (ds, rest) =>
    let (gs, rest2) := commaGroups (rest.length + 1) rest
    match rest2 with
    | '.' :: d1 :: d2 :: rest3 =>
      if isDigitCh d1 && isDigitCh d2 then
        some (ds ++ gs.join ++ '.' :: [d1, d2], rest3)
      else some (ds ++ gs.join, rest2)
    | _ => some (ds ++ gs.join, rest2)

/-- The trailing context (?:\s|$|,|\.|\n) of the fourth line-item pattern:
one whitespace character, the end of input, a comma or a dot (the \n
alternative is subsumed by \s).  Returns the rest after the consumed
character. -/
def trailingCtx : List Char → Option (List Char)
  | [] => some []
  | c :: rest =>
    if isWsCh c || c = ',' || c = '.' then some rest else none

/-- The amount token followed by the trailing context, with the backtracking
the JavaScript engine performs: the fully greedy parse is tried first; if the
trailing context fails, the optional fraction is given back (the dot then
satisfies the context); failing that, the last comma group is given back (its
comma then satisfies the context).  Giving back single digits can never help
because the context never accepts a digit. -/
def amountWithTrailing (cs : List Char) : Option (List Char × List Char) :=
  match digits1 cs with
  | none => none
  | some (ds, rest) =>
    let (gs, rest2) := commaGroups (rest.length + 1) rest
    let backtrackGroups : Option (List Char × List Char) :=
      match gs.getLast? with
      | some g => some (ds ++ gs.dropLast.join, g.drop 1 ++ rest2)
      | none => none
    match rest2 with
    | '.' :: d1 :: d2 :: rest3 =>
      if isDigitCh d1 && isDigitCh d2 then
        match trailingCtx rest3 with
        | some r => some (ds ++ gs.join ++ '.' :: [d1, d2], r)
        | none =>
          -- give the fraction back; the '.' itself satisfies the context
          some (ds ++ gs.join, d1 :: d2 :: rest3)
      else
        match trailingCtx rest2 with
        | some r => some (ds ++ gs.join, r)
        | none => backtrackGroups
    | _ =>
      match trailingCtx rest2 with
      | some r => some (ds ++ gs.join, r)
      | none => backtrackGroups

/-! ## Line-item extraction (ExtractionEngine.extractLineItems, engine.ts 164-252) -/

/-- The description class [A-Za-z\s()]. -/
def descCls (c : Char) : Bool := isAlphaCh c || isWsCh c || c = '(' || c = ')'

/-- The currency class [₹Rs$€] under the i flag: the characters ₹, $, €, and
R and s in either case. -/
def currencyClassCh (c : Char) : Bool :=
  c = '₹' || c = '$' || c = '€' || ciEqCh c 'R' || ciEqCh c 'S'

/-- The currency alternation ([₹Rs$€]|INR|USD|EUR|rs) under the i flag, each
alternative tried in order together with the continuation. -/
def tryCurrency {α : Type} (cs : List Char) (k : List Char → Option α) : Option α :=
  (match cs with
   | c :: rest => if currencyClassCh c then k rest else none
   | [] => none) <|>
  tryCiAlts ["INR".data, "USD".data, "EUR".data, "rs".data] cs k

/-- Rest of pattern 1 after the lazy description group:
\s+(?:came to|is|for|was|costs?|totals?)\s+currency\s*amount.
The optional s of costs? and totals? is greedy, so the longer verb is tried
first.  Returns the matched amount characters and the rest of the input. -/
def p1After (cs : List Char) : Option (List Char × List Char) := do
  let cs1 ← ws1 cs
  tryCiAlts ["came to".data, "is".data, "for".data, "was".data,
             "costs".data, "cost".data, "totals".data, "total".data] cs1
    (fun cs2 => do
      let cs3 ← ws1 cs2
      tryCurrency cs3 (fun cs4 => amountNoCtx (dropWs cs4)))

/-- Rest of pattern 2 after the description: \s*[-—–]\s*currency\s*amount. -/
def p2After (cs : List Char) : Option (List Char × List Char) :=
  match dropWs cs with
  | c :: rest =>
    if c = '-' || c = '—' || c = '–' then
      tryCurrency (dropWs rest) (fun cs2 => amountNoCtx (dropWs cs2))
    else none
  | [] => none

/-- Rest of pattern 3 after the description: \s*:\s*currency\s*amount. -/
def p3After (cs : List Char) : Option (List Char × List Char) :=
  match dropWs cs with
  | c :: rest =>
    if c = ':' then
      tryCurrency (dropWs rest) (fun cs2 => amountNoCtx (dropWs cs2))
    else none
  | [] => none

/-- Rest of pattern 4 after the description:
\s+currency\s*amount(?:\s|$|,|\.|\n). -/
def p4After (cs : List Char) : Option (List Char × List Char) := do
  let cs1 ← ws1 cs
  tryCurrency cs1 (fun cs2 => amountWithTrailing (dropWs cs2))

/-- Match one line-item pattern at a fixed position: the lazy description
group ([A-Za-z][A-Za-z\s()]+?) followed by the given rest-of-pattern.
Returns (description, amount characters, rest of input). -/
def matchDescThen (after : List Char → Option (List Char × List Char))
    (cs : List Char) : Option (List Char × List Char × List Char) :=
  match cs with
  | c0 :: c1 :: rest =>
    if isAlphaCh c0 && descCls c1 then
      lazyExtend descCls
        (fun acc rest2 => (after rest2).map (fun p => (acc, p.1, p.2)))
        [c0, c1] rest
    else none
  | _ => none

/-- The global scan of one pattern: leftmost matches, resuming after each
match (RegExp.exec with the g flag); the fuel starts at the input length. -/
def scanItems (tryAt : List Char → Option (List Char × List Char × List Char)) :
    Nat → List Char → List (List Char × List Char)
  | 0, _ => []
  | fuel+1, cs =>
    match tryAt cs with
    | some (d, a, rest) => (d, a) :: scanItems tryAt fuel rest
    | none =>
      match cs with
      | [] => []
      | _ :: t => scanItems tryAt fuel t

/-- The bullet markers [•\-\*]. -/
def bulletMarkCh (c : Char) : Bool := c = '•' || c = '-' || c = '*'

/-- The optional bullet separator class [:—–-]. -/
def bulletSepCh (c : Char) : Bool := c = ':' || c = '—' || c = '–' || c = '-'

/-- Rest of the bullet pattern after the description:
\s*[:—–-]?\s*currency\s*amount, with the greedy optional separator. -/
def bulletAfter (cs : List Char) : Option (List Char × List Char) :=
  (match dropWs cs with
   | c :: rest =>
     if bulletSepCh c then
       tryCurrency (dropWs rest) (fun cs2 => amountNoCtx (dropWs cs2))
     else none
   | [] => none) <|>
  tryCurrency (dropWs cs) (fun cs2 => amountNoCtx (dropWs cs2))

/-- A bullet match at a position: marker, \s*, lazy description, rest. -/
def bulletCoreAt (cs : List Char) : Option (List Char × List Char × List Char) :=
  match cs with
  | b :: rest =>
    if bulletMarkCh b then matchDescThen bulletAfter (dropWs rest) else none
  | [] => none

/-- Global scan of the bullet pattern (?:^|\n)[•\-\*]... with the gim flags:
a match may start at a line start (the ^ under m) or consume a newline. -/
def scanBullets : Nat → Bool → List Char → List (List Char × List Char)
  | 0, _, _ => []
  | fuel+1, lineStart, cs =>
    match cs with
    | [] => []
    | c :: t =>
      match (if lineStart then bulletCoreAt cs else none) <|>
            (if c = '\n' then bulletCoreAt t else none) with
      | some (d, a, rest) => (d, a) :: scanBullets fuel false rest
      | none => scanBullets fuel (c = '\n') t

/-- JavaScript parseFloat on a matched amount string of shape
digits, optional dot and digits (commas already removed). -/
def parseFloatQ (cs : List Char) : ℚ :=
  let ws := cs.takeWhile isDigitCh
  let whole := digitsToNat ws
  match cs.drop ws.length with
  | '.' :: fr =>
    let fd := fr.takeWhile isDigitCh
    (whole : ℚ) + (digitsToNat fd : ℚ) / 10 ^ fd.length
  | _ => (whole : ℚ)

/-- The acceptance test of the main line-item loop (the negation of the skip
condition at engine.ts 192-198): description at least 3 characters, no
total / amount payable / overall marker, amount positive and at most 100000.
parseFloat of a matched amount string is never NaN, so the isNaN disjunct of
the source is vacuous here. -/
def mainAccept (desc : List Char) (amount : ℚ) : Bool :=
  !(decide (desc.length < 3) ||
    containsStr (lowerChars desc) "total".data ||
    containsStr (lowerChars desc) "amount payable".data ||
    containsStr (lowerChars desc) "overall".data ||
    decide ((100000 : ℚ) < amount) ||
    decide (amount ≤ 0))

/-- The acceptance test of the bullet loop (engine.ts 227-231). -/
def bulletAccept (desc : List Char) (amount : ℚ) : Bool :=
  decide (3 ≤ desc.length) &&
  !containsStr (lowerChars desc) "total".data &&
  decide ((0 : ℚ) < amount) &&
  decide (amount ≤ (100000 : ℚ))

/-- Add one raw match to the (seen keys, item list) state: trim the
description, strip commas from the amount, apply the acceptance test and the
duplicate suppression, and append the item with its positional id. -/
def addItem (accept : List Char → ℚ → Bool)
    (st : List (List Char × ℚ) × List LineItem) (d a : List Char) :
    List (List Char × ℚ) × List LineItem :=
  let desc := trimChars d
  let amount := parseFloatQ (a.filter (fun c => c ≠ ','))
  if accept desc amount then
    let key := (lowerChars desc, amount)
    if st.1.contains key then st
    else (key :: st.1,
      st.2 ++ [⟨"item-" ++ natToString (st.2.length + 1), String.mk desc, 1,
        amount, amount⟩])
  else st

/-- ExtractionEngine.extractLineItems: the four sentence patterns scanned
globally in order, then the bullet pattern, with shared duplicate
suppression. -/
def extractLineItems (text : List Char) : List LineItem :=
  let fuel := text.length + 1
  let raw :=
    scanItems (matchDescThen p1After) fuel text ++
    scanItems (matchDescThen p2After) fuel text ++
    scanItems (matchDescThen p3After) fuel text ++
    scanItems (matchDescThen p4After) fuel text
  let st1 := raw.foldl (fun st p => addItem mainAccept st p.1 p.2) ([], [])
  let st2 := (scanBullets fuel true text).foldl
    (fun st p => addItem bulletAccept st p.1 p.2) st1
  st2.2

/-! ## Currency, amount and date extraction -/

/-- ExtractionEngine.extractCurrencyFromAmount: case-sensitive substring
tests in priority order INR, USD, EUR. -/
def extractCurrencyFromAmount (text : List Char) : Option String :=
  if containsStr text "₹".data || containsStr text "Rs".data ||
      containsStr text "INR".data then some "INR"
  else if containsStr text "$".data || containsStr text "USD".data then some "USD"
  else if containsStr text "€".data || containsStr text "EUR".data then some "EUR"
  else none

/-- First match of a position matcher, scanning left to right. -/
def scanFirst {α : Type} (tryAt : List Char → Option α) :
    Nat → List Char → Option α
  | 0, _ => none
  | fuel+1, cs =>
    tryAt cs <|>
      (match cs with
       | [] => none
       | _ :: t => scanFirst tryAt fuel t)

/-- First match of a position matcher that also sees the previous character
(for the \b assertions), scanning left to right. -/
def scanFirstP {α : Type} (tryAt : Option Char → List Char → Option α) :
    Nat → Option Char → List Char → Option α
  | 0, _, _ => none
  | fuel+1, prev, cs =>
    tryAt prev cs <|>
      (match cs with
       | [] => none
       | c :: t => scanFirstP tryAt fuel (some c) t)

/-- All matches of a matcher that sees the previous character and reports the
last character it consumed, scanning with RegExp.exec g-flag semantics. -/
def scanCollectP {α : Type}
    (tryAt : Option Char → List Char → Option (α × Option Char × List Char)) :
    Nat → Option Char → List Char → List α
  | 0, _, _ => []
  | fuel+1, prev, cs =>
    match tryAt prev cs with
    | some (v, last, rest) => v :: scanCollectP tryAt fuel last rest
    | none =>
      match cs with
      | [] => []
      | c :: t => scanCollectP tryAt fuel (some c) t

/-- The seven single-amount patterns of ExtractionEngine.extractAmount in
priority order, each a case-insensitive currency marker, \s*, and the amount
token. -/
def extractAmount (text : List Char) : Option ℚ × Option String :=
  let f := text.length + 1
  let run (tryAt : List Char → Option (List Char × List Char)) :=
    scanFirst tryAt f text
  let pats : List ((List Char → Option (List Char × List Char)) × String) :=
    [(fun cs => do
        let c1 ← ciStrip "₹".data cs
        amountNoCtx (dropWs c1), "INR"),
     (fun cs => do
        let c1 ← ciStrip "Rs".data cs
        (do
          let c2 ← csStrip ".".data c1
          amountNoCtx (dropWs c2)) <|> amountNoCtx (dropWs c1), "INR"),
     (fun cs => do
        let c1 ← ciStrip "INR".data cs
        amountNoCtx (dropWs c1), "INR"),
     (fun cs => do
        let c1 ← ciStrip "$".data cs
        amountNoCtx (dropWs c1), "USD"),
     (fun cs => do
        let c1 ← ciStrip "USD".data cs
        amountNoCtx (dropWs c1), "USD"),
     (fun cs => do
        let c1 ← ciStrip "€".data cs
        amountNoCtx (dropWs c1), "EUR"),
     (fun cs => do
        let c1 ← ciStrip "EUR".data cs
        amountNoCtx (dropWs c1), "EUR")]
  let rec go : List ((List Char → Option (List Char × List Char)) × String) →
      Option ℚ × Option String
    | [] => (none, none)
    | (p, cur) :: rest =>
      match run p with
      | some (a, _) => (some (parseFloatQ (a.filter (fun c => c ≠ ','))), some cur)
      | none => go rest
  go pats

/-- Zero-padded two-digit rendering, String(n).padStart(2, '0'). -/
def pad2 (n : Nat) : List Char :=
  let d := natDigits n
  List.replicate (2 - d.length) '0' ++ d

/-- The ISO date string (year)-(padded month)-(padded day). -/
def isoDate (y m d : Nat) : String :=
  String.mk (natDigits y ++ '-' :: pad2 m ++ '-' :: pad2 d)

/-- The month-name alternation of the text date pattern, in source order,
with the month numbers of the monthNames map. -/
def monthAlts : List (List Char × Nat) :=
  [("january".data, 1), ("february".data, 2), ("march".data, 3),
   ("april".data, 4), ("may".data, 5), ("june".data, 6), ("july".data, 7),
   ("august".data, 8), ("september".data, 9), ("october".data, 10),
   ("november".data, 11), ("december".data, 12),
   ("jan".data, 1), ("feb".data, 2), ("mar".data, 3), ("apr".data, 4),
   ("may".data, 5), ("jun".data, 6), ("jul".data, 7), ("aug".data, 8),
   ("sep".data, 9), ("sept".data, 9), ("oct".data, 10), ("nov".data, 11),
   ("dec".data, 12)]

/-- Ordered month alternation with continuation (case-insensitive). -/
def tryMonths {α : Type} : List (List Char × Nat) → List Char →
    (Nat → List Char → Option α) → Option α
  | [], _, _ => none
  | (a, v) :: rest, cs, k =>
    (match ciStrip a cs with
     | some cs2 => k v cs2
     | none => none) <|> tryMonths rest cs k

/-- A day token \d{1,2}, greedy two digits first, then one, each tried with
the continuation. -/
def tryDay12 {α : Type} (cs : List Char) (k : Nat → List Char → Option α) :
    Option α :=
  match cs with
  | d1 :: d2 :: rest =>
    if isDigitCh d1 then
      (if isDigitCh d2 then k (digitsToNat [d1, d2]) rest else none) <|>
        k (digitsToNat [d1]) (d2 :: rest)
    else none
  | [d1] => if isDigitCh d1 then k (digitsToNat [d1]) [] else none
  | [] => none

/-- Exactly four digits \d{4}. -/
def fourDigits (cs : List Char) : Option (Nat × Option Char × List Char) :=
  match cs with
  | a :: b :: c :: d :: rest =>
    if isDigitCh a && isDigitCh b && isDigitCh c && isDigitCh d then
      some (digitsToNat [a, b, c, d], some d, rest)
    else none
  | _ => none

/-- No word character follows (the closing \b after a word character). -/
def noWordNext : List Char → Bool
  | [] => true
  | c :: _ => !isWordCh c

/-- The text date pattern
\b(\d{1,2})(?:st|nd|rd|th)?\s+(month names)\s+(\d{4})\b at one position:
returns (day, month, year). -/
def textDateAt (prev : Option Char) (cs : List Char) :
    Option ((Nat × Nat × Nat) × Option Char × List Char) :=
  match prev with
  | some p =>
    if isWordCh p then none else textDateCore cs
  | none => textDateCore cs
where
  textDateCore (cs : List Char) :
      Option ((Nat × Nat × Nat) × Option Char × List Char) :=
    tryDay12 cs (fun day cs1 =>
      (tryCiAlts ["st".data, "nd".data, "rd".data, "th".data] cs1
        (fun cs2 => afterOrdinal day cs2) <|> afterOrdinal day cs1))
  afterOrdinal (day : Nat) (cs : List Char) :
      Option ((Nat × Nat × Nat) × Option Char × List Char) := do
    let cs1 ← ws1 cs
    tryMonths monthAlts cs1 (fun month cs2 => do
      let cs3 ← ws1 cs2
      let (year, last, rest) ← fourDigits cs3
      if noWordNext rest then some ((day, month, year), last, rest) else none)

/-- The numeric date pattern with slash-or-dash separators,
\b(\d{1,2}) sep (\d{1,2}) sep (\d{4})\b, at one position:
returns (first, second, year). -/
def numDate1At (prev : Option Char) (cs : List Char) :
    Option ((Nat × Nat × Nat) × Option Char × List Char) :=
  match prev with
  | some p => if isWordCh p then none else numDate1Core cs
  | none => numDate1Core cs
where
  sep : List Char → Option (List Char)
    | c :: rest => if c = '/' || c = '-' then some rest else none
    | [] => none
  numDate1Core (cs : List Char) :
      Option ((Nat × Nat × Nat) × Option Char × List Char) :=
    tryDay12 cs (fun first cs1 => do
      let cs2 ← sep cs1
      tryDay12 cs2 (fun second cs3 => do
        let cs4 ← sep cs3
        let (year, last, rest) ← fourDigits cs4
        if noWordNext rest then some ((first, second, year), last, rest)
        else none))

/-- The ISO numeric date pattern \b(\d{4})-(\d{1,2})-(\d{1,2})\b at one
position: returns (year, month, day). -/
def numDate2At (prev : Option Char) (cs : List Char) :
    Option ((Nat × Nat × Nat) × Option Char × List Char) :=
  match prev with
  | some p => if isWordCh p then none else numDate2Core cs
  | none => numDate2Core cs
where
  numDate2Core (cs : List Char) :
      Option ((Nat × Nat × Nat) × Option Char × List Char) := do
    let (year, _, cs1) ← fourDigits cs
    match cs1 with
    | '-' :: cs2 =>
      tryDay12 cs2 (fun month cs3 =>
        match cs3 with
        | '-' :: cs4 =>
          tryDay12 cs4 (fun day rest =>
            match rest with
            | [] => some ((year, month, day), none, [])
            | c :: _ =>
              if isWordCh c then none
              else some ((year, month, day), some 'x', rest))
        | _ => none)
    | _ => none

/-- ExtractionEngine.extractDates: all text-date matches (validated day
range), then all DD/MM/YYYY matches (validated day and month), then all
YYYY-MM-DD matches (pushed without range validation, as in the source). -/
def extractDates (text : List Char) : List String :=
  let f := text.length + 1
  let tds := (scanCollectP textDateAt f none text).filterMap
    (fun t => if 1 ≤ t.1 ∧ t.1 ≤ 31 then some (isoDate t.2.2 t.2.1 t.1) else none)
  let b1 := (scanCollectP numDate1At f none text).filterMap
    (fun t =>
      if 1 ≤ t.2.1 ∧ t.2.1 ≤ 12 ∧ 1 ≤ t.1 ∧ t.1 ≤ 31 then
        some (isoDate t.2.2 t.2.1 t.1)
      else none)
  let b2 := (scanCollectP numDate2At f none text).map
    (fun t => isoDate t.1 t.2.1 t.2.2)
  tds ++ b1 ++ b2

/-! ## Payment information -/

/-- The UPI / email character class [\w.-]. -/
def upiCls (c : Char) : Bool := isWordCh c || c = '.' || c = '-'

/-- Backtracking search for the closing \b of a greedy class run: walk the
reversed kept part, giving characters back until the last kept character is a
word character and the first given-back character (when any) is not. -/
def wordEndSplitAux : Nat → List Char → List Char →
    Option (List Char × List Char)
  | 0, _, _ => none
  | fuel+1, revKeep, giveback =>
    match revKeep with
    | [] => none
    | c :: restRev =>
      if isWordCh c &&
          (match giveback with
           | [] => true
           | g :: _ => !isWordCh g) then
        some ((c :: restRev).reverse, giveback)
      else wordEndSplitAux fuel restRev (c :: giveback)

/-- Longest prefix of a maximal class run that ends the match at a \b
(characters after the run are outside the class, hence non-word). -/
def wordEndSplit (run : List Char) : Option (List Char × List Char) :=
  wordEndSplitAux (run.length + 1) run.reverse []

/-- The UPI pattern \b([\w.-]+@[\w.-]+)\b at one position. -/
def upiAt (prev : Option Char) (cs : List Char) : Option (List Char) :=
  match cs with
  | c :: _ =>
    if upiCls c && boundary prev (some c) then
      let lcl := cs.takeWhile upiCls
      match cs.drop lcl.length with
      | '@' :: afterAt =>
        let dom := afterAt.takeWhile upiCls
        if dom = [] then none
        else
          match wordEndSplit dom with
          | some (keep, _) => some (lcl ++ '@' :: keep)
          | none => none
      | _ => none
    else none
  | [] => none

/-- The account-number pattern \b(\d{9,18})\b at one position: a maximal
digit run of length 9 to 18 with boundaries on both sides. -/
def acctAt (prev : Option Char) (cs : List Char) : Option (List Char) :=
  match cs with
  | c :: _ =>
    if isDigitCh c && boundary prev (some c) then
      let run := cs.takeWhile isDigitCh
      if 9 ≤ run.length && run.length ≤ 18 &&
          noWordNext (cs.drop run.length) then some run
      else none
    else none
  | [] => none

/-- The IFSC pattern \b([A-Z]{4}0[A-Z0-9]{6})\b with the i flag at one
position. -/
def ifscAt (prev : Option Char) (cs : List Char) : Option (List Char) :=
  match cs with
  | a :: b :: c :: d :: z :: e1 :: e2 :: e3 :: e4 :: e5 :: e6 :: rest =>
    if isAlphaCh a && boundary prev (some a) && isAlphaCh b && isAlphaCh c &&
        isAlphaCh d && z = '0' && isAlnumCh e1 && isAlnumCh e2 &&
        isAlnumCh e3 && isAlnumCh e4 && isAlnumCh e5 && isAlnumCh e6 &&
        noWordNext rest then
      some [a, b, c, d, z, e1, e2, e3, e4, e5, e6]
    else none
  | _ => none

/-- The IFSC-prefix-to-bank map of extractPaymentInfo. -/
def bankMap : List (List Char × String) :=
  [("HDFC".data, "HDFC Bank"), ("ICIC".data, "ICICI Bank"),
   ("SBIN".data, "State Bank of India"), ("AXIS".data, "Axis Bank"),
   ("PNB".data, "Punjab National Bank"), ("BARB".data, "Bank of Baroda"),
   ("KKBK".data, "Kotak Mahindra Bank"), ("UTIB".data, "Axis Bank"),
   ("YESB".data, "Yes Bank")]

/-- A \b(alt1|alt2)\b/i bank-name pattern at one position: ordered
alternation; the capture is the original text slice (case preserved). -/
def bankAltAt (alts : List (List Char)) (prev : Option Char)
    (cs : List Char) : Option (List Char) :=
  match alts with
  | [] => none
  | a :: rest =>
    (match cs with
     | c :: _ =>
       if boundary prev (some c) then
         match ciStrip a cs with
         | some rest2 =>
           if noWordNext rest2 then some (cs.take a.length) else none
         | none => none
       else none
     | [] => none) <|> bankAltAt rest prev cs

/-- The bankPatterns list of extractPaymentInfo, in source order. -/
def bankPatterns : List (List (List Char)) :=
  [["State Bank of India".data, "SBI".data],
   ["HDFC Bank".data, "HDFC".data],
   ["ICICI Bank".data, "ICICI".data],
   ["Axis Bank".data, "Axis".data],
   ["Punjab National Bank".data, "PNB".data],
   ["Bank of Baroda".data, "BOB".data],
   ["Kotak Mahindra Bank".data, "Kotak".data],
   ["Yes Bank".data, "YES".data]]

/-- First bankPatterns match, patterns tried in order over the whole text. -/
def firstBankMatch (text : List Char) : Option (List Char) :=
  let f := text.length + 1
  let rec go : List (List (List Char)) → Option (List Char)
    | [] => none
    | alts :: rest =>
      match scanFirstP (bankAltAt alts) f none text with
      | some cap => some cap
      | none => go rest
  go bankPatterns

/-- ExtractionEngine.extractPaymentInfo: UPI id (filtered against .com and
.org), account number, IFSC code uppercased with the bank looked up from its
prefix, then the bankPatterns overriding the bank name. -/
def extractPaymentInfo (text : List Char) : PaymentInfo :=
  let f := text.length + 1
  let upi :=
    match scanFirstP upiAt f none text with
    | some cap =>
      if !containsStr cap ".com".data && !containsStr cap ".org".data then
        some (String.mk cap)
      else none
    | none => none
  let acct := (scanFirstP acctAt f none text).map String.mk
  let (ifsc, bankFromIfsc) :=
    match scanFirstP ifscAt f none text with
    | some cap =>
      (some (String.mk (upperChars cap)),
       (bankMap.find? (fun p => p.1 = upperChars (cap.take 4))).map Prod.snd)
    | none => (none, none)
  let bank :=
    match firstBankMatch text with
    | some cap => some (String.mk cap)
    | none => bankFromIfsc
  { upiId := upi, bankName := bank, accountNumber := acct,
    ifscCode := ifsc, accountHolderName := none }

/-! ## GST number, tax rate, email, phone -/

/-- The GST core shape \d{2}[A-Z]{5}\d{4}[A-Z]{1}[A-Z0-9]{1}Z[A-Z0-9]{1}
under the i flag: fifteen characters, returned with the rest. -/
def gstCoreMatch (cs : List Char) : Option (List Char × List Char) :=
  match cs with
  | c1 :: c2 :: c3 :: c4 :: c5 :: c6 :: c7 :: c8 :: c9 :: c10 :: c11 ::
      c12 :: c13 :: c14 :: c15 :: rest =>
    if isDigitCh c1 && isDigitCh c2 && isAlphaCh c3 && isAlphaCh c4 &&
        isAlphaCh c5 && isAlphaCh c6 && isAlphaCh c7 && isDigitCh c8 &&
        isDigitCh c9 && isDigitCh c10 && isDigitCh c11 && isAlphaCh c12 &&
        isAlnumCh c13 && ciEqCh c14 'Z' && isAlnumCh c15 then
      some ([c1, c2, c3, c4, c5, c6, c7, c8, c9, c10, c11, c12, c13, c14, c15],
        rest)
    else none
  | _ => none

/-- The GST core with its closing \b. -/
def gstCore1 (c : List Char) : Option (List Char) := do
  let (cap, rest) ← gstCoreMatch c
  if noWordNext rest then some cap else none

/-- The separator \s*:?\s* followed by the GST core and the closing \b. -/
def gstSep (cs : List Char) : Option (List Char) :=
  (match dropWs cs with
   | ':' :: rest => gstCore1 (dropWs rest)
   | _ => none) <|> gstCore1 (dropWs cs)

/-- The prefixed GST pattern
\b(?:GST|GSTIN|GST\s*Number|GST\s*No\.?)\s*:?\s*(core)\b/i at one position,
with the four alternatives tried in order. -/
def gstPrefixAt (prev : Option Char) (cs : List Char) : Option (List Char) :=
  match cs with
  | c :: _ =>
    if boundary prev (some c) then
      (do
        let c1 ← ciStrip "GST".data cs
        gstSep c1) <|>
      (do
        let c1 ← ciStrip "GSTIN".data cs
        gstSep c1) <|>
      (do
        let c1 ← ciStrip "GST".data cs
        let c2 ← ciStrip "Number".data (dropWs c1)
        gstSep c2) <|>
      (do
        let c1 ← ciStrip "GST".data cs
        let c2 ← ciStrip "No".data (dropWs c1)
        ((do
          let c3 ← csStrip ".".data c2
          gstSep c3) <|> gstSep c2))
    else none
  | [] => none

/-- The bare GST pattern \b(core)\b/i at one position. -/
def gstBareAt (prev : Option Char) (cs : List Char) : Option (List Char) :=
  match cs with
  | c :: _ =>
    if boundary prev (some c) then gstCore1 cs
    else none
  | [] => none

/-- ExtractionEngine.extractGSTNumber: prefixed pattern first, then the bare
pattern, the capture uppercased. -/
def extractGSTNumber (text : List Char) : Option String :=
  let f := text.length + 1
  match scanFirstP gstPrefixAt f none text with
  | some cap => some (String.mk (upperChars cap))
  | none =>
    match scanFirstP gstBareAt f none text with
    | some cap => some (String.mk (upperChars cap))
    | none => none

/-- The class [A-Z0-9] of the GST validation pattern. -/
def upperOrDigit (c : Char) : Bool := isUpperCh c || isDigitCh c

/-- The anchored validation shape
^\d{2}[A-Z]{5}\d{4}[A-Z]{1}[A-Z0-9]{1}Z[A-Z0-9]{1}$ (no i flag). -/
def gstShape (cs : List Char) : Bool :=
  match cs with
  | [c1, c2, c3, c4, c5, c6, c7, c8, c9, c10, c11, c12, c13, c14, c15] =>
    isDigitCh c1 && isDigitCh c2 && isUpperCh c3 && isUpperCh c4 &&
    isUpperCh c5 && isUpperCh c6 && isUpperCh c7 && isDigitCh c8 &&
    isDigitCh c9 && isDigitCh c10 && isDigitCh c11 && isUpperCh c12 &&
    upperOrDigit c13 && decide (c14 = 'Z') && upperOrDigit c15
  | _ => false

/-- validateGSTNumber of validators.ts: falsy input rejected, then the
anchored shape tested on the trimmed, uppercased string. -/
def validateGSTNumber (g : String) : Bool :=
  if g = "" then false
  else gstShape (upperChars (trimChars g.data))

/-- \s* then a literal percent sign. -/
def pctAfter : List Char → Option (List Char)
  | cs =>
    match dropWs cs with
    | '%' :: rest => some rest
    | _ => none

/-- The rate token (\d+(?:\.\d+)?)\s*% : the captured numeral and the rest
after the percent sign. -/
def numTokPct (cs : List Char) : Option (List Char × List Char) := do
  let (ds, r) ← digits1 cs
  match r with
  | '.' :: r2 =>
    (do
      let (fs, r3) ← digits1 r2
      let rr ← pctAfter r3
      some (ds ++ '.' :: fs, rr)) <|>
    (do
      let rr ← pctAfter r
      some (ds, rr))
  | _ => do
    let rr ← pctAfter r
    some (ds, rr)

/-- Pattern 1, \bGST\s*@\s*(rate)\s*% /i. -/
def taxPat1At (prev : Option Char) (cs : List Char) : Option (List Char) :=
  match cs with
  | c :: _ =>
    if boundary prev (some c) then do
      let c1 ← ciStrip "GST".data cs
      match dropWs c1 with
      | '@' :: c2 => ((numTokPct (dropWs c2)).map Prod.fst)
      | _ => none
    else none
  | [] => none

/-- Pattern 2, \b(rate)\s*%\s*GST\b /i. -/
def taxPat2At (prev : Option Char) (cs : List Char) : Option (List Char) :=
  match cs with
  | c :: _ =>
    if boundary prev (some c) then do
      let (ds, r) ← numTokPct cs
      let r2 ← ciStrip "GST".data (dropWs r)
      if noWordNext r2 then some ds else none
    else none
  | [] => none

/-- Pattern 3, \bGST\s+(rate)\s*% /i. -/
def taxPat3At (prev : Option Char) (cs : List Char) : Option (List Char) :=
  match cs with
  | c :: _ =>
    if boundary prev (some c) then do
      let c1 ← ciStrip "GST".data cs
      let c2 ← ws1 c1
      ((numTokPct c2).map Prod.fst)
    else none
  | [] => none

/-- Pattern 4, \bGST\s+of\s+(rate)\s*% /i. -/
def taxPat4At (prev : Option Char) (cs : List Char) : Option (List Char) :=
  match cs with
  | c :: _ =>
    if boundary prev (some c) then do
      let c1 ← ciStrip "GST".data cs
      let c2 ← ws1 c1
      let c3 ← ciStrip "of".data c2
      let c4 ← ws1 c3
      ((numTokPct c4).map Prod.fst)
    else none
  | [] => none

/-- Pattern 5, \b(rate)\s*%\s*tax\b /i. -/
def taxPat5At (prev : Option Char) (cs : List Char) : Option (List Char) :=
  match cs with
  | c :: _ =>
    if boundary prev (some c) then do
      let (ds, r) ← numTokPct cs
      let r2 ← ciStrip "tax".data (dropWs r)
      if noWordNext r2 then some ds else none
    else none
  | [] => none

/-- Pattern 6, \btax\s+(rate)\s*% /i. -/
def taxPat6At (prev : Option Char) (cs : List Char) : Option (List Char) :=
  match cs with
  | c :: _ =>
    if boundary prev (some c) then do
      let c1 ← ciStrip "tax".data cs
      let c2 ← ws1 c1
      ((numTokPct c2).map Prod.fst)
    else none
  | [] => none

/-- Pattern 7, \btax\s+rate\s*:?\s*(rate)\s*% /i. -/
def taxPat7At (prev : Option Char) (cs : List Char) : Option (List Char) :=
  match cs with
  | c :: _ =>
    if boundary prev (some c) then do
      let c1 ← ciStrip "tax".data cs
      let c2 ← ws1 c1
      let c3 ← ciStrip "rate".data c2
      let c4 := dropWs c3
      let c5 := (match c4 with
                 | ':' :: r => dropWs r
                 | _ => c4)
      ((numTokPct c5).map Prod.fst)
    else none
  | [] => none

/-- ExtractionEngine.extractTaxRate: the seven patterns in order; the first
pattern with a match yields parseFloat of the captured numeral, accepted when
within [0, 100], otherwise the next pattern is tried. -/
def extractTaxRate (text : List Char) : Option ℚ :=
  let f := text.length + 1
  let pats := [taxPat1At, taxPat2At, taxPat3At, taxPat4At, taxPat5At,
    taxPat6At, taxPat7At]
  let rec go : List (Option Char → List Char → Option (List Char)) → Option ℚ
    | [] => none
    | p :: rest =>
      match scanFirstP p f none text with
      | some ds =>
        let rate := parseFloatQ ds
        if 0 ≤ rate ∧ rate ≤ 100 then some rate else go rest
      | none => go rest
  go pats

/-- Backtracking over the final \.[a-zA-Z]{2,}\b of the email pattern inside
a maximal class run: the dots of the run are tried from the last one
leftwards; at each, the maximal letter run after it must have length at least
two and be followed by a non-word character or the end. -/
def emailDomain (run : List Char) : Option (List Char) :=
  (((List.range run.length).filter
      (fun j => 1 ≤ j && run.getD j ' ' = '.')).reverse).findSome?
    (fun j =>
      let A := (run.drop (j+1)).takeWhile isAlphaCh
      if 2 ≤ A.length then
        match run.drop (j + 1 + A.length) with
        | [] => some (run.take (j+1) ++ A)
        | c :: _ => if isWordCh c then none else some (run.take (j+1) ++ A)
      else none)

/-- The email pattern \b([\w.-]+@[\w.-]+\.[a-zA-Z]{2,})\b at one position. -/
def emailAt (prev : Option Char) (cs : List Char) : Option (List Char) :=
  match cs with
  | c :: _ =>
    if upiCls c && boundary prev (some c) then
      let lcl := cs.takeWhile upiCls
      match cs.drop lcl.length with
      | '@' :: afterAt =>
        let dom := afterAt.takeWhile upiCls
        (emailDomain dom).map (fun d => lcl ++ '@' :: d)
      | _ => none
    else none
  | [] => none

/-- ExtractionEngine.extractEmail. -/
def extractEmail (text : List Char) : Option String :=
  (scanFirstP emailAt (text.length + 1) none text).map String.mk

/-- Exactly nine digits. -/
def nineDigits (cs : List Char) : Option (List Char × List Char) :=
  match cs with
  | a :: b :: c :: d :: e :: f :: g :: h :: i :: rest =>
    if isDigitCh a && isDigitCh b && isDigitCh c && isDigitCh d &&
        isDigitCh e && isDigitCh f && isDigitCh g && isDigitCh h &&
        isDigitCh i then
      some ([a, b, c, d, e, f, g, h, i], rest)
    else none
  | _ => none

/-- The phone pattern (?:\+91|0)?([6-9]\d{9})\b at one position: the optional
prefix tried greedily (+91, then 0, then nothing), then the ten-digit capture
with its closing \b. -/
def phoneAt (cs : List Char) : Option (List Char) :=
  let core (c : List Char) : Option (List Char) :=
    match c with
    | d :: rest =>
      if isDigitCh d && 54 ≤ d.toNat then do
        let (ds, rest2) ← nineDigits rest
        if noWordNext rest2 then some (d :: ds) else none
      else none
    | [] => none
  (do
    let c1 ← csStrip "+91".data cs
    core c1) <|>
  (do
    let c1 ← csStrip "0".data cs
    core c1) <|> core cs

/-- ExtractionEngine.extractPhone. -/
def extractPhone (text : List Char) : Option String :=
  (scanFirst phoneAt (text.length + 1) text).map String.mk

/-! ## Client name -/

/-- The name character class [A-Za-z\s&.,()] of the label-style client-name
groups. -/
def nameCls (c : Char) : Bool :=
  isAlphaCh c || isWsCh c || c = '&' || c = '.' || c = ',' ||
    c = '(' || c = ')'

/-- Terminator (?:\s*\n|\s*$|\.|,): a whitespace run containing a newline, a
whitespace run reaching the end of input, or an immediate dot or comma. -/
def term1Ok (cs : List Char) : Bool :=
  (cs.takeWhile isWsCh).contains '\n' || dropWs cs = [] ||
    (match cs with
     | '.' :: _ => true
     | ',' :: _ => true
     | _ => false)

/-- Terminator (?:\s*\n|\s*$|\.|,|:) of the second pattern. -/
def term2Ok (cs : List Char) : Bool :=
  term1Ok cs ||
    (match cs with
     | ':' :: _ => true
     | _ => false)

/-- Terminator (?:\s*\n|\s*$|,) of the to/client/name patterns. -/
def term5Ok (cs : List Char) : Bool :=
  (cs.takeWhile isWsCh).contains '\n' || dropWs cs = [] ||
    (match cs with
     | ',' :: _ => true
     | _ => false)

/-- Terminator (?:\s*\n|\s*$|,|\s+for\s+) of the from pattern (the for
alternative is case-sensitive: the pattern has no i flag). -/
def term4Ok (cs : List Char) : Bool :=
  term5Ok cs ||
    (match (do
        let c1 ← ws1 cs
        let c2 ← csStrip "for".data c1
        ws1 c2) with
     | some _ => true
     | none => false)

/-- A lazy label-style name group ([A-Z][A-Za-z\s&.,()]+?) under the i flag
(first character any letter), extended one class character at a time until
the terminator succeeds. -/
def lazyNameGroup (term : List Char → Bool) (cs : List Char) :
    Option (List Char) :=
  match cs with
  | c :: rest =>
    if isAlphaCh c then
      lazyExtend nameCls
        (fun acc r => if acc.length ≥ 2 ∧ term r then some acc else none)
        [c] rest
    else none
  | [] => none

/-- One name word [A-Z][a-zA-Z]+ (first character any letter when the
pattern has the i flag, strict uppercase otherwise); at least one further
letter, collected greedily. -/
def nameWord (upperOnly : Bool) (cs : List Char) :
    Option (List Char × List Char) :=
  match cs with
  | c :: rest =>
    if (if upperOnly then isUpperCh c else isAlphaCh c) then
      let tail := rest.takeWhile isAlphaCh
      if tail = [] then none else some (c :: tail, rest.drop tail.length)
    else none
  | [] => none

/-- The greedy star (?:\s+[A-Z][a-zA-Z]+)* collecting the actual whitespace
characters into the capture. -/
def nameWordsStar (upperOnly : Bool) : Nat → List Char → List Char →
    List Char × List Char
  | 0, acc, cs => (acc, cs)
  | fuel+1, acc, cs =>
    let wsRun := cs.takeWhile isWsCh
    if wsRun = [] then (acc, cs)
    else
      match nameWord upperOnly (cs.drop wsRun.length) with
      | some (w, rest) => nameWordsStar upperOnly fuel (acc ++ wsRun ++ w) rest
      | none => (acc, cs)

/-- Pattern 1, the bill-to labels: six case-sensitive spellings under the i
flag, then a colon, \s*, a lazy name group and terminator 1. -/
def cn1At (cs : List Char) : Option (List Char) :=
  let rec alts : List (List (List Char)) → Option (List Char)
    | [] => none
    | ws :: rest =>
      (do
        let c1 ← stripWords ws cs
        match c1 with
        | ':' :: c2 => lazyNameGroup term1Ok (dropWs c2)
        | _ => none) <|> alts rest
  alts [["bill".data, "it".data, "to".data], ["bill".data, "to".data],
    ["Bill".data, "it".data, "to".data], ["Bill".data, "to".data],
    ["BILL".data, "IT".data, "TO".data], ["BILL".data, "TO".data]]
where
  stripWords : List (List Char) → List Char → Option (List Char)
    | [], cs => some cs
    | [w], cs => ciStrip w cs
    | w :: ws, cs => do
      let c1 ← ciStrip w cs
      let c2 ← ws1 c1
      stripWords ws c2

/-- Pattern 2, (?:for|For|FOR)\s+(?:the\s+)?(group)(term2) under the i
flag. -/
def cn2At (cs : List Char) : Option (List Char) := do
  let c1 ← ciStrip "for".data cs
  let c2 ← ws1 c1
  (do
    let c3 ← ciStrip "the".data c2
    let c4 ← ws1 c3
    lazyNameGroup term2Ok c4) <|> lazyNameGroup term2Ok c2

/-- Pattern 3, (?:Hi|Hello|Dear)\s+(?:Mr\.?|Ms\.?|Mrs\.?|Dr\.?)?\s*
([A-Z][a-zA-Z]+(?:\s+[A-Z][a-zA-Z]+)*) under the i flag. -/
def cn3At (cs : List Char) : Option (List Char) :=
  tryCiAlts ["Hi".data, "Hello".data, "Dear".data] cs (fun c1 => do
    let c2 ← ws1 c1
    tryCiAlts ["Mr.".data, "Mr".data, "Ms.".data, "Ms".data, "Mrs.".data,
        "Mrs".data, "Dr.".data, "Dr".data] c2
        (fun c3 => cn3Words (dropWs c3)) <|>
      cn3Words (dropWs c2))
where
  cn3Words (c : List Char) : Option (List Char) := do
    let (w1, r1) ← nameWord false c
    some (nameWordsStar false (r1.length + 1) w1 r1).1

/-- The capture of the from/to patterns,
([A-Z][a-zA-Z]+(?:\s+[A-Z][a-zA-Z]+)?) with a strict uppercase initial and
an optional greedy second word, checked against the given terminator. -/
def fromToName (term : List Char → Bool) (cs : List Char) :
    Option (List Char) := do
  let (w1, r1) ← nameWord true cs
  (do
    let wsRun := r1.takeWhile isWsCh
    if wsRun = [] then none
    else
      match nameWord true (r1.drop wsRun.length) with
      | some (w2, r2) =>
        if term r2 then some (w1 ++ wsRun ++ w2) else none
      | none => none) <|>
  (if term r1 then some w1 else none)

/-- Pattern 4, (?:from|From|FROM)\s+(group)(term4), case-sensitive. -/
def cn4At (cs : List Char) : Option (List Char) :=
  tryCsAlts ["from".data, "From".data, "FROM".data] cs (fun c1 => do
    let c2 ← ws1 c1
    fromToName term4Ok c2)

/-- Pattern 5, (?:to|To|TO)\s+(group)(term5), case-sensitive. -/
def cn5At (cs : List Char) : Option (List Char) :=
  tryCsAlts ["to".data, "To".data, "TO".data] cs (fun c1 => do
    let c2 ← ws1 c1
    fromToName term5Ok c2)

/-- Pattern 6, (?:client|Client|CLIENT):\s*(group)(term5) under the i
flag. -/
def cn6At (cs : List Char) : Option (List Char) := do
  let c1 ← ciStrip "client".data cs
  match c1 with
  | ':' :: c2 => lazyNameGroup term5Ok (dropWs c2)
  | _ => none

/-- Pattern 7, (?:name|Name|NAME):\s*(group)(term5) under the i flag. -/
def cn7At (cs : List Char) : Option (List Char) := do
  let c1 ← ciStrip "name".data cs
  match c1 with
  | ':' :: c2 => lazyNameGroup term5Ok (dropWs c2)
  | _ => none

/-- The trimmed capture passes the final filter: length at least 2, and not
one of the stop words the, a, an, for, to, from (lowercased). -/
def cnFilter (cap : List Char) : Option String :=
  let name := trimChars cap
  if 2 ≤ name.length ∧
      ¬ (lowerChars name ∈ [("the").data, ("a").data, ("an").data,
          ("for").data, ("to").data, ("from").data]) then
    some (String.mk name)
  else none

/-- ExtractionEngine.extractClientName: the seven patterns in source order;
for each, the first match in the text is taken and the trimmed capture is
returned if it passes the filter, otherwise the next pattern is tried. -/
def extractClientName (text : List Char) : Option String :=
  let f := text.length + 1
  let rec go : List (List Char → Option (List Char)) → Option String
    | [] => none
    | p :: rest =>
      match scanFirst p f text with
      | some cap =>
        (match cnFilter cap with
         | some n => some n
         | none => go rest)
      | none => go rest
  go [cn1At, cn2At, cn3At, cn4At, cn5At, cn6At, cn7At]

/-! ## Structured format template -/

/-- The capture of a /Label:\s*(.+)/ pattern right after the label: greedy
\s* possibly crossing newlines, backtracked until the single-line group .+
can take at least one non-newline character. -/
def lineCapture (after : List Char) : Option (List Char) :=
  let W := after.takeWhile isWsCh
  let rest := after.drop W.length
  match rest with
  | _ :: _ => some (rest.takeWhile (fun x => x ≠ '\n'))
  | [] =>
    match W.reverse.dropWhile (fun x => x = '\n') with
    | c :: _ => some [c]
    | [] => none

/-- First /Label:\s*(.+)/i match in the text, the capture trimmed.  A match
whose capture trims to the empty string is still an assignment (the empty
string), as in the source. -/
def labelMatch (label : List Char) (text : List Char) : Option String :=
  (scanFirst
    (fun cs => do
      let c1 ← ciStrip label cs
      lineCapture c1)
    (text.length + 1) text).map (fun cap => String.mk (trimChars cap))

/-- The stop lookahead (?=\n\n|Due Date:|Payment:|$) of the items section. -/
def itemsStop (cs : List Char) : Bool :=
  (match cs with
   | '\n' :: '\n' :: _ => true
   | _ => false) ||
  (ciStrip "Due Date:".data cs).isSome ||
  (ciStrip "Payment:".data cs).isSome || cs = []

/-- The items section /Items:([\s\S]*?)(?=\n\n|Due Date:|Payment:|$)/i at
one position: the lazily collected section body. -/
def itemsSectionAt (cs : List Char) : Option (List Char) := do
  let c1 ← ciStrip "Items:".data cs
  lazyExtend (fun _ => true)
    (fun acc r => if itemsStop r then some acc else none) [] c1

/-- The currency character class [₹Rs$€] under the i flag. -/
def itemCurrencyCh (c : Char) : Bool :=
  c = '₹' || c = '$' || c = '€' || ciEqCh c 'R' || ciEqCh c 'S'

/-- After the colon of an item line: \s*, an optional single currency-class
character (greedy), \s*, then the amount token. -/
def itemAmountPart (cs : List Char) : Option (List Char × List Char) :=
  let c := dropWs cs
  (match c with
   | ch :: t => if itemCurrencyCh ch then amountNoCtx (dropWs t) else none
   | [] => none) <|> amountNoCtx c

/-- The item-line pattern of the structured format at one position (marker
already consumed): \s* backtracked greedily, lazy single-line description,
colon, optional currency mark and amount.  Returns (description characters,
amount characters, rest). -/
def itemAfterMarker (rest : List Char) :
    Option (List Char × List Char × List Char) :=
  let W := rest.takeWhile isWsCh
  go (W.length + 1) W.length
where
  groupAt (c : List Char) : Option (List Char × List Char × List Char) :=
    match c with
    | x :: r =>
      if x ≠ '\n' then
        lazyExtend (fun ch => ch ≠ '\n')
          (fun acc rr =>
            match rr with
            | ':' :: r2 =>
              (itemAmountPart r2).map (fun p => (acc, p.1, p.2))
            | _ => none)
          [x] r
      else none
    | [] => none
  go : Nat → Nat → Option (List Char × List Char × List Char)
    | 0, _ => none
    | _+1, 0 => groupAt rest
    | fuel+1, w+1 => groupAt (rest.drop (w+1)) <|> go fuel w

/-- One item-line match [-•]\s*(.+?):\s*[₹Rs$€]?\s*(amount) at one
position. -/
def itemLineAt (cs : List Char) :
    Option ((List Char × List Char) × List Char) :=
  match cs with
  | m :: rest =>
    if m = '-' || m = '•' then
      (itemAfterMarker rest).map (fun t => ((t.1, t.2.1), t.2.2))
    else none
  | [] => none

/-- All item-line matches of the g-flag scan over the section body. -/
def scanItemLines : Nat → List Char → List (List Char × List Char)
  | 0, _ => []
  | fuel+1, cs =>
    match itemLineAt cs with
    | some (v, rest) => v :: scanItemLines fuel rest
    | none =>
      match cs with
      | [] => []
      | _ :: t => scanItemLines fuel t

/-- The result object of extractFromStructuredFormat. -/
structure StructuredData where
  clientName : Option String
  clientCompany : Option String
  clientEmail : Option String
  clientPhone : Option String
  items : Option (List (String × ℚ))
  dueDate : Option String
  upiId : Option String
  bankName : Option String
  accountNumber : Option String
  ifscCode : Option String
deriving DecidableEq

/-- extractFromStructuredFormat of format-template.ts: the Label: line
captures, and the item lines of the Items: section. -/
def extractFromStructuredFormat (text : List Char) : StructuredData :=
  let items :=
    match scanFirst itemsSectionAt (text.length + 1) text with
    | some body =>
      let parsed := (scanItemLines (body.length + 1) body).map
        (fun p =>
          (String.mk (trimChars p.1),
           parseFloatQ (p.2.filter (fun c => c ≠ ','))))
      if parsed = [] then none else some parsed
    | none => none
  { clientName := labelMatch "Client:".data text
    clientCompany := labelMatch "Company:".data text
    clientEmail := labelMatch "Email:".data text
    clientPhone := labelMatch "Phone:".data text
    items := items
    dueDate := labelMatch "Due Date:".data text
    upiId := labelMatch "UPI:".data text
    bankName := labelMatch "Bank:".data text
    accountNumber := labelMatch "Account:".data text
    ifscCode := labelMatch "IFSC:".data text }

/-! ## extractWithRegex assembly -/

/-- The items / totals / currency block of extractWithRegex: structured
items when present, else regex line items, else the single-amount
fallback. -/
def ewrItems (text : List Char) (sd : StructuredData) (e : PartialInvoice) :
    PartialInvoice :=
  match sd.items with
  | some sitems =>
    if sitems ≠ [] then
      let mapped := sitems.enum.map (fun p =>
        LineItem.mk ("item-" ++ natToString (p.1 + 1)) p.2.1 1 p.2.2 p.2.2)
      let total := sitems.foldl (fun s it => s + it.2) 0
      let e1 := { e with items := some mapped, total := some total,
                         subtotal := some total }
      match extractCurrencyFromAmount text with
      | some c => { e1 with currency := some c }
      | none => e1
    else ewrItemsFallback text e
  | none => ewrItemsFallback text e
where
  ewrItemsFallback (text : List Char) (e : PartialInvoice) : PartialInvoice :=
    let lineItems := extractLineItems text
    if lineItems ≠ [] then
      let total := sumAmounts lineItems
      let e1 := { e with items := some lineItems, total := some total,
                         subtotal := some total }
      match extractCurrencyFromAmount text with
      | some c => { e1 with currency := some c }
      | none => e1
    else
      let ac := extractAmount text
      let e1 :=
        match ac.1 with
        | some a => { e with total := some a, subtotal := some a }
        | none => e
      match ac.2 with
      | some c => { e1 with currency := some c }
      | none => e1

/-- The structured-due-date block of extractWithRegex. -/
def ewrStructuredDue (sd : StructuredData) (e : PartialInvoice) :
    PartialInvoice :=
  if sTruthy sd.dueDate then
    match extractDates (sd.dueDate.getD "").data with
    | d :: _ => { e with dueDate := some d }
    | [] => e
  else e

/-- The date block of extractWithRegex: first date is the invoice date, a
second one overrides the due date. -/
def ewrDates (text : List Char) (e : PartialInvoice) : PartialInvoice :=
  match extractDates text with
  | [] => e
  | [d1] => { e with invoiceDate := some d1 }
  | d1 :: d2 :: _ => { e with invoiceDate := some d1, dueDate := some d2 }

/-- The payment-info block: assigned when the object has at least one
key. -/
def ewrPayment (text : List Char) (e : PartialInvoice) : PartialInvoice :=
  let p := extractPaymentInfo text
  if p.upiId.isSome || p.bankName.isSome || p.accountNumber.isSome ||
      p.ifscCode.isSome then
    { e with paymentInfo := some p }
  else e

/-- The GST block: the GST number is recorded in the notes. -/
def ewrGST (text : List Char) (e : PartialInvoice) : PartialInvoice :=
  match extractGSTNumber text with
  | some g =>
    if sTruthy e.notes then
      { e with notes := some (e.notes.getD "" ++ "\nGST: " ++ g) }
    else { e with notes := some ("GST: " ++ g) }
  | none => e

/-- The tax-rate block: rate recorded; tax amount and total recomputed from
a truthy positive subtotal, else subtotal and tax amount derived backwards
from a truthy positive total. -/
def ewrTax (text : List Char) (e : PartialInvoice) : PartialInvoice :=
  match extractTaxRate text with
  | some rate =>
    let e1 := { e with taxRate := some rate }
    if qTruthy e1.subtotal ∧ 0 < e1.subtotal.getD 0 then
      let s := e1.subtotal.getD 0
      let ta := round2 (s * rate / 100)
      { e1 with taxAmount := some ta, total := some (round2 (s + ta)) }
    else if qTruthy e1.total ∧ 0 < e1.total.getD 0 then
      let t := e1.total.getD 0
      let s := round2 (t / (1 + rate / 100))
      { e1 with subtotal := some s, taxAmount := some (round2 (t - s)) }
    else e1
  | none => e

/-- The contact block: email, phone, then the client-name heuristic, each
overriding when found. -/
def ewrContact (text : List Char) (e : PartialInvoice) : PartialInvoice :=
  let e1 :=
    match extractEmail text with
    | some m => { e with clientEmail := some m }
    | none => e
  let e2 :=
    match extractPhone text with
    | some p => { e1 with clientPhone := some p }
    | none => e1
  match extractClientName text with
  | some n => { e2 with clientName := some n }
  | none => e2

/-- The leading structured-client block of extractWithRegex. -/
def ewrStructuredClient (sd : StructuredData) (e : PartialInvoice) :
    PartialInvoice :=
  let e1 := if sTruthy sd.clientName then
    { e with clientName := sd.clientName } else e
  let e2 := if sTruthy sd.clientCompany then
    { e1 with clientCompany := sd.clientCompany } else e1
  let e3 := if sTruthy sd.clientEmail then
    { e2 with clientEmail := sd.clientEmail } else e2
  if sTruthy sd.clientPhone then
    { e3 with clientPhone := sd.clientPhone } else e3

/-- ExtractionEngine.extractWithRegex: the blocks in source statement
order. -/
def extractWithRegex (text : List Char) : PartialInvoice :=
  let sd := extractFromStructuredFormat text
  let e0 := ewrStructuredClient sd PartialInvoice.empty
  let e1 := ewrItems text sd e0
  let e2 := ewrStructuredDue sd e1
  let e3 := ewrDates text e2
  let e4 := ewrPayment text e3
  let e5 := ewrGST text e4
  let e6 := ewrTax text e5
  ewrContact text e6

/-! ## Character-case lemmas for the GST validation claim -/

theorem charOfNat_toNat {n : Nat} (h : n < 55296) : (Char.ofNat n).toNat = n := by
  unfold Char.ofNat
  rw [dif_pos (Or.inl h)]
  rfl

theorem isDigitCh_iff {c : Char} :
    isDigitCh c = true ↔ 48 ≤ c.toNat ∧ c.toNat ≤ 57 := by
  simp [isDigitCh]

theorem isUpperCh_iff {c : Char} :
    isUpperCh c = true ↔ 65 ≤ c.toNat ∧ c.toNat ≤ 90 := by
  simp [isUpperCh]

theorem isLowerCh_iff {c : Char} :
    isLowerCh c = true ↔ 97 ≤ c.toNat ∧ c.toNat ≤ 122 := by
  simp [isLowerCh]

theorem toUpperCh_of_not_lower {c : Char} (h : isLowerCh c = false) :
    toUpperCh c = c := by
  simp [toUpperCh, h]

theorem toUpperCh_toNat_of_lower {c : Char} (h : isLowerCh c = true) :
    (toUpperCh c).toNat = c.toNat - 32 := by
  have hb := isLowerCh_iff.mp h
  simp only [toUpperCh, h, if_true]
  exact charOfNat_toNat (by omega)

theorem isLowerCh_toUpperCh (c : Char) : isLowerCh (toUpperCh c) = false := by
  cases hl : isLowerCh c with
  | false => rw [toUpperCh_of_not_lower hl]; exact hl
  | true =>
    have hb := isLowerCh_iff.mp hl
    have ht := toUpperCh_toNat_of_lower hl
    cases h2 : isLowerCh (toUpperCh c) with
    | false => rfl
    | true =>
      exfalso
      have := isLowerCh_iff.mp h2
      omega

theorem toUpperCh_idem (c : Char) : toUpperCh (toUpperCh c) = toUpperCh c :=
  toUpperCh_of_not_lower (isLowerCh_toUpperCh c)

theorem toUpperCh_digit {c : Char} (h : isDigitCh c = true) : toUpperCh c = c := by
  apply toUpperCh_of_not_lower
  have hb := isDigitCh_iff.mp h
  cases h2 : isLowerCh c with
  | false => rfl
  | true =>
    exfalso
    have := isLowerCh_iff.mp h2
    omega

theorem isUpperCh_toUpperCh {c : Char} (h : isAlphaCh c = true) :
    isUpperCh (toUpperCh c) = true := by
  simp only [isAlphaCh, Bool.or_eq_true] at h
  rcases h with hu | hl
  · have hb := isUpperCh_iff.mp hu
    have hnl : isLowerCh c = false := by
      cases h2 : isLowerCh c with
      | false => rfl
      | true =>
        exfalso
        have := isLowerCh_iff.mp h2
        omega
    rw [toUpperCh_of_not_lower hnl]
    exact hu
  · have hb := isLowerCh_iff.mp hl
    have ht := toUpperCh_toNat_of_lower hl
    exact isUpperCh_iff.mpr (by omega)

theorem upperOrDigit_toUpperCh {c : Char} (h : isAlnumCh c = true) :
    upperOrDigit (toUpperCh c) = true := by
  simp only [isAlnumCh, Bool.or_eq_true] at h
  rcases h with hd | ha
  · rw [upperOrDigit, toUpperCh_digit hd]
    simp [hd]
  · rw [upperOrDigit, isUpperCh_toUpperCh ha]
    simp

theorem ciZ_cases {c : Char} (h : ciEqCh c 'Z' = true) : c = 'Z' ∨ c = 'z' := by
  have h' : toLowerCh c = 'z' := by
    rw [of_decide_eq_true h]
    decide
  unfold toLowerCh at h'
  cases hu : isUpperCh c with
  | true =>
    rw [if_pos hu] at h'
    have hb := isUpperCh_iff.mp hu
    have hforward := congrArg Char.toNat h'
    rw [charOfNat_toNat (by omega)] at hforward
    have hz : Char.toNat 'z' = 122 := by decide
    have hc : c.toNat = 90 := by omega
    left
    rw [← Char.ofNat_toNat c, hc]
  | false =>
    rw [if_neg (by simp [hu])] at h'
    right
    exact h'

theorem toUpperCh_ciZ {c : Char} (h : ciEqCh c 'Z' = true) : toUpperCh c = 'Z' := by
  rcases ciZ_cases h with rfl | rfl <;> decide

theorem isAlnumCh_of_ciZ {c : Char} (h : ciEqCh c 'Z' = true) :
    isAlnumCh c = true := by
  rcases ciZ_cases h with rfl | rfl <;> decide

theorem isWsCh_toNat {c : Char} (h : isWsCh c = true) : c.toNat ≤ 32 := by
  simp only [isWsCh, Bool.or_eq_true, decide_eq_true_eq] at h
  rcases h with ((((h | h) | h) | h) | h) | h
  · rw [h]; decide
  · rw [h]; decide
  · rw [h]; decide
  · rw [h]; decide
  · omega
  · omega

theorem isWsCh_of_alnum {c : Char} (h : isAlnumCh c = true) :
    isWsCh c = false := by
  cases hw : isWsCh c with
  | false => rfl
  | true =>
    exfalso
    have h32 := isWsCh_toNat hw
    simp only [isAlnumCh, isAlphaCh, Bool.or_eq_true] at h
    rcases h with hd | hu | hl
    · have := isDigitCh_iff.mp hd; omega
    · have := isUpperCh_iff.mp hu; omega
    · have := isLowerCh_iff.mp hl; omega

theorem isAlnumCh_toUpperCh {c : Char} (h : isAlnumCh c = true) :
    isAlnumCh (toUpperCh c) = true := by
  simp only [isAlnumCh, Bool.or_eq_true] at h ⊢
  rcases h with hd | ha
  · rw [toUpperCh_digit hd]
    exact Or.inl hd
  · right
    simp [isAlphaCh, isUpperCh_toUpperCh ha]

theorem trimChars_eq_self {l : List Char} (h : ∀ c ∈ l, isWsCh c = false) :
    trimChars l = l := by
  have key : ∀ m : List Char, (∀ c ∈ m, isWsCh c = false) →
      m.dropWhile isWsCh = m := by
    intro m hm
    cases m with
    | nil => rfl
    | cons a t => simp [List.dropWhile_cons, hm a (by simp)]
  unfold trimChars
  rw [key l h, key l.reverse (fun c hc => h c (List.mem_reverse.mp hc)),
    List.reverse_reverse]

/-! ## The GST extractor emits validated, uppercase numbers -/

/-- A capture produced by the GST core pattern. -/
def gstCapOk (cap : List Char) : Prop :=
  ∃ cs rest, gstCoreMatch cs = some (cap, rest)

theorem orElse_eq_some_cases {α : Type} {a b : Option α} {c : α}
    (h : (a <|> b) = some c) : a = some c ∨ b = some c := by
  cases a with
  | some x => left; simpa using h
  | none => right; simpa using h

theorem gstCoreMatch_inv {cs cap rest}
    (h : gstCoreMatch cs = some (cap, rest)) :
    ∃ a b d e f g i j k l m n o p q,
      cap = [a, b, d, e, f, g, i, j, k, l, m, n, o, p, q] ∧
      isDigitCh a = true ∧ isDigitCh b = true ∧ isAlphaCh d = true ∧
      isAlphaCh e = true ∧ isAlphaCh f = true ∧ isAlphaCh g = true ∧
      isAlphaCh i = true ∧ isDigitCh j = true ∧ isDigitCh k = true ∧
      isDigitCh l = true ∧ isDigitCh m = true ∧ isAlphaCh n = true ∧
      isAlnumCh o = true ∧ ciEqCh p 'Z' = true ∧ isAlnumCh q = true := by
  unfold gstCoreMatch at h
  split at h
  · split at h
    · rename_i c1 c2 c3 c4 c5 c6 c7 c8 c9 c10 c11 c12 c13 c14 c15 rest' hcond
      simp only [Option.some.injEq, Prod.mk.injEq] at h
      obtain ⟨hcap, -⟩ := h
      simp only [Bool.and_eq_true] at hcond
      obtain ⟨⟨⟨⟨⟨⟨⟨⟨⟨⟨⟨⟨⟨⟨h1, h2⟩, h3⟩, h4⟩, h5⟩, h6⟩, h7⟩, h8⟩, h9⟩,
        h10⟩, h11⟩, h12⟩, h13⟩, h14⟩, h15⟩ := hcond
      exact ⟨c1, c2, c3, c4, c5, c6, c7, c8, c9, c10, c11, c12, c13, c14, c15,
        hcap.symm, h1, h2, h3, h4, h5, h6, h7, h8, h9, h10, h11, h12, h13,
        h14, h15⟩
    · simp at h
  · simp at h

theorem gstCore1_ok {c : List Char} {cap : List Char}
    (h : gstCore1 c = some cap) : gstCapOk cap := by
  unfold gstCore1 at h
  cases hcm : gstCoreMatch c with
  | none => rw [hcm] at h; simp at h
  | some pr =>
    obtain ⟨cap', rest'⟩ := pr
    rw [hcm] at h
    replace h : (if noWordNext rest' then some cap' else none) = some cap := h
    split at h
    · obtain rfl := Option.some.inj h
      exact ⟨c, rest', hcm⟩
    · simp at h

theorem gstSep_ok {cs : List Char} {cap : List Char}
    (h : gstSep cs = some cap) : gstCapOk cap := by
  unfold gstSep at h
  rcases orElse_eq_some_cases h with h1 | h1
  · split at h1
    · exact gstCore1_ok h1
    · simp at h1
  · exact gstCore1_ok h1

theorem gstPrefixAt_ok {prev : Option Char} {cs cap : List Char}
    (h : gstPrefixAt prev cs = some cap) : gstCapOk cap := by
  cases cs with
  | nil => simp [gstPrefixAt] at h
  | cons c t =>
    simp only [gstPrefixAt] at h
    split at h
    · rcases orElse_eq_some_cases h with h1 | h
      · cases hcs : ciStrip "GST".data (c :: t) with
        | none => rw [hcs] at h1; simp at h1
        | some c1 =>
          rw [hcs] at h1
          replace h1 : gstSep c1 = some cap := h1
          exact gstSep_ok h1
      rcases orElse_eq_some_cases h with h1 | h
      · cases hcs : ciStrip "GSTIN".data (c :: t) with
        | none => rw [hcs] at h1; simp at h1
        | some c1 =>
          rw [hcs] at h1
          replace h1 : gstSep c1 = some cap := h1
          exact gstSep_ok h1
      rcases orElse_eq_some_cases h with h1 | h
      · cases hcs : ciStrip "GST".data (c :: t) with
        | none => rw [hcs] at h1; simp at h1
        | some c1 =>
          rw [hcs] at h1
          replace h1 : (do
              let c2 ← ciStrip "Number".data (dropWs c1)
              gstSep c2) = some cap := h1
          cases hc2 : ciStrip "Number".data (dropWs c1) with
          | none => rw [hc2] at h1; simp at h1
          | some c2 =>
            rw [hc2] at h1
            replace h1 : gstSep c2 = some cap := h1
            exact gstSep_ok h1
      cases hcs : ciStrip "GST".data (c :: t) with
      | none => rw [hcs] at h; simp at h
      | some c1 =>
        rw [hcs] at h
        replace h : (do
            let c2 ← ciStrip "No".data (dropWs c1)
            ((do
              let c3 ← csStrip ".".data c2
              gstSep c3) <|> gstSep c2)) = some cap := h
        cases hc2 : ciStrip "No".data (dropWs c1) with
        | none => rw [hc2] at h; simp at h
        | some c2 =>
          rw [hc2] at h
          replace h : ((do
              let c3 ← csStrip ".".data c2
              gstSep c3) <|> gstSep c2) = some cap := h
          rcases orElse_eq_some_cases h with h1 | h1
          · cases hc3 : csStrip ".".data c2 with
            | none => rw [hc3] at h1; simp at h1
            | some c3 =>
              rw [hc3] at h1
              replace h1 : gstSep c3 = some cap := h1
              exact gstSep_ok h1
          · exact gstSep_ok h1
    · simp at h

theorem gstBareAt_ok {prev : Option Char} {cs cap : List Char}
    (h : gstBareAt prev cs = some cap) : gstCapOk cap := by
  cases cs with
  | nil => simp [gstBareAt] at h
  | cons c t =>
    simp only [gstBareAt] at h
    split at h
    · exact gstCore1_ok h
    · simp at h

theorem scanFirstP_some {α : Type}
    (tryAt : Option Char → List Char → Option α) :
    ∀ (fuel : Nat) (prev : Option Char) (cs : List Char) (a : α),
      scanFirstP tryAt fuel prev cs = some a →
      ∃ prev' cs', tryAt prev' cs' = some a := by
  intro fuel
  induction fuel with
  | zero => intro prev cs a h; simp [scanFirstP] at h
  | succ n ih =>
    intro prev cs a h
    cases cs with
    | nil =>
      replace h : (tryAt prev [] <|> (none : Option α)) = some a := h
      rcases orElse_eq_some_cases h with h1 | h1
      · exact ⟨prev, [], h1⟩
      · exact absurd h1 (by simp)
    | cons c t =>
      replace h : (tryAt prev (c :: t) <|> scanFirstP tryAt n (some c) t) =
          some a := h
      rcases orElse_eq_some_cases h with h1 | h1
      · exact ⟨prev, c :: t, h1⟩
      · exact ih (some c) t a h1

theorem validate_of_capOk {cap : List Char} (hok : gstCapOk cap) :
    validateGSTNumber (String.mk (upperChars cap)) = true ∧
      ∀ c ∈ upperChars cap, isLowerCh c = false := by
  obtain ⟨cs, rest, hc⟩ := hok
  obtain ⟨a, b, d, e, f, g, i, j, k, l, m, n, o, p, q, hcap,
    h1, h2, h3, h4, h5, h6, h7, h8, h9, h10, h11, h12, h13, h14, h15⟩ :=
    gstCoreMatch_inv hc
  subst hcap
  have halnum : ∀ x ∈ [a, b, d, e, f, g, i, j, k, l, m, n, o, p, q],
      isAlnumCh x = true := by
    intro x hx
    simp only [List.mem_cons, List.not_mem_nil, or_false] at hx
    rcases hx with rfl | rfl | rfl | rfl | rfl | rfl | rfl | rfl | rfl | rfl |
      rfl | rfl | rfl | rfl | rfl
    · simp [isAlnumCh, h1]
    · simp [isAlnumCh, h2]
    · simp [isAlnumCh, h3]
    · simp [isAlnumCh, h4]
    · simp [isAlnumCh, h5]
    · simp [isAlnumCh, h6]
    · simp [isAlnumCh, h7]
    · simp [isAlnumCh, h8]
    · simp [isAlnumCh, h9]
    · simp [isAlnumCh, h10]
    · simp [isAlnumCh, h11]
    · simp [isAlnumCh, h12]
    · exact h13
    · exact isAlnumCh_of_ciZ h14
    · exact h15
  have hnonws : ∀ c ∈ upperChars [a, b, d, e, f, g, i, j, k, l, m, n, o, p, q],
      isWsCh c = false := by
    intro c hcmem
    simp only [upperChars, List.mem_map] at hcmem
    obtain ⟨x, hx, rfl⟩ := hcmem
    exact isWsCh_of_alnum (isAlnumCh_toUpperCh (halnum x hx))
  refine ⟨?_, ?_⟩
  · unfold validateGSTNumber
    rw [if_neg (by
      intro hcon
      have hd := congrArg String.data hcon
      simp [upperChars] at hd)]
    show gstShape (upperChars (trimChars
      (upperChars [a, b, d, e, f, g, i, j, k, l, m, n, o, p, q]))) = true
    rw [trimChars_eq_self hnonws]
    have hidem : upperChars (upperChars [a, b, d, e, f, g, i, j, k, l, m, n,
        o, p, q]) = upperChars [a, b, d, e, f, g, i, j, k, l, m, n, o, p, q] := by
      simp [upperChars, toUpperCh_idem]
    rw [hidem]
    simp only [upperChars, List.map_cons, List.map_nil, gstShape]
    rw [toUpperCh_digit h1, toUpperCh_digit h2, toUpperCh_digit h8,
      toUpperCh_digit h9, toUpperCh_digit h10, toUpperCh_digit h11,
      toUpperCh_ciZ h14]
    simp [h1, h2, h8, h9, h10, h11, isUpperCh_toUpperCh h3,
      isUpperCh_toUpperCh h4, isUpperCh_toUpperCh h5, isUpperCh_toUpperCh h6,
      isUpperCh_toUpperCh h7, isUpperCh_toUpperCh h12,
      upperOrDigit_toUpperCh h13, upperOrDigit_toUpperCh h15]
  · intro c hcmem
    simp only [upperChars, List.mem_map] at hcmem
    obtain ⟨x, _, rfl⟩ := hcmem
    exact isLowerCh_toUpperCh x

/-- C10: every GST number emitted by extractGSTNumber is entirely uppercase
and passes the shared validateGSTNumber predicate. -/
theorem extractGSTNumber_validates (text : List Char) (g : String)
    (h : extractGSTNumber text = some g) :
    validateGSTNumber g = true ∧ ∀ c ∈ g.data, isLowerCh c = false := by
  have hg : ∃ cap, gstCapOk cap ∧ g = String.mk (upperChars cap) := by
    replace h : (match scanFirstP gstPrefixAt (text.length + 1) none text with
      | some cap => some (String.mk (upperChars cap))
      | none =>
        match scanFirstP gstBareAt (text.length + 1) none text with
        | some cap => some (String.mk (upperChars cap))
        | none => none) = some g := h
    cases hp : scanFirstP gstPrefixAt (text.length + 1) none text with
    | some cap =>
      rw [hp] at h
      replace h : some (String.mk (upperChars cap)) = some g := h
      obtain ⟨prev', cs', hat⟩ := scanFirstP_some _ _ _ _ _ hp
      exact ⟨cap, gstPrefixAt_ok hat, (Option.some.inj h).symm⟩
    | none =>
      rw [hp] at h
      cases hb : scanFirstP gstBareAt (text.length + 1) none text with
      | some cap =>
        rw [hb] at h
        replace h : some (String.mk (upperChars cap)) = some g := h
        obtain ⟨prev', cs', hat⟩ := scanFirstP_some _ _ _ _ _ hb
        exact ⟨cap, gstBareAt_ok hat, (Option.some.inj h).symm⟩
      | none =>
        rw [hb] at h
        replace h : (none : Option String) = some g := h
        exact absurd h (by simp)
  obtain ⟨cap, hok, rfl⟩ := hg
  exact validate_of_capOk hok

/-- Witness for C10 at the spec-style input GST: 29ABCDE1234F1Z5. -/
theorem extractGSTNumber_validates_witness :
    extractGSTNumber ("GST: 29ABCDE1234F1Z5".data) = some "29ABCDE1234F1Z5" ∧
      validateGSTNumber "29ABCDE1234F1Z5" = true :=
  ⟨by decide,
   (extractGSTNumber_validates ("GST: 29ABCDE1234F1Z5".data) "29ABCDE1234F1Z5"
     (by decide)).1⟩

/-! ## The worked extraction example and totality -/

/-- The example input of the spec and of the repository's own test suite. -/
def c8Input : String :=
  "Logo redesign came to ₹3,200 and the website banner set is ₹4,500"

/-- The value extractWithRegex actually produces on that input: four line
items, not two, and totals of 15400. -/
def c8Actual : PartialInvoice :=
  { PartialInvoice.empty with
      items := some
        [⟨"item-1", "Logo redesign", 1, 3200, 3200⟩,
         ⟨"item-2", "and the website banner set", 1, 4500, 4500⟩,
         ⟨"item-3", "Logo redesign came to", 1, 3200, 3200⟩,
         ⟨"item-4", "and the website banner set is", 1, 4500, 4500⟩],
      subtotal := some 15400,
      total := some 15400,
      currency := some "INR" }

/-- C8: on the input "Logo redesign came to ₹3,200 and the website banner
set is ₹4,500", extractWithRegex returns FOUR line items (the fourth
line-item pattern matches the same amounts again with verb-laden
descriptions that the deduplication key does not collapse), with subtotal
and total 15400 — not the two items with subtotal and total 7700 that the
claim, the spec and the repository's own test expect. -/
theorem extractWithRegex_c8_diverges :
    extractWithRegex c8Input.data = c8Actual ∧
      ((c8Actual.items.getD []).length = 4 ∧
        c8Actual.subtotal ≠ some (7700 : ℚ) ∧
        c8Actual.total ≠ some (7700 : ℚ)) := by
  refine ⟨by decide, by decide, by decide, by decide⟩

/-- C9: extractWithRegex is a total function of the input text — in this
embedding it is a plain function into partial invoices, with no error
outcome — and on the empty input it returns the empty partial result. -/
theorem extractWithRegex_total :
    (∀ text : List Char, ∃ r : PartialInvoice, extractWithRegex text = r) ∧
      extractWithRegex "".data = PartialInvoice.empty :=
  ⟨fun _ => ⟨_, rfl⟩, by decide⟩

end RatEval

end InvoiceGen
